import Mathlib

/-!
Verification of the expressvpnspeedtest benchmark orchestrator (app.go).

The Go program drives two external tools (expressvpnctl, speedtest), aggregates
speed-test samples per VPN location, and persists results into a pretty-printed
JSON document.  This file gives a shallow embedding of the program:

* external subprocess results (region lists, connection states, speed-test
  outputs, elapsed times, hostname lookups) are inputs to the embedded
  functions;
* Go strings are modelled as Lean `String` (valid Unicode); all character
  manipulation is done on `String.data` so that every definition reduces in
  the kernel;
* Go `float64` accumulation of integer speeds is modelled by exact integer
  arithmetic (exact for the magnitudes the program produces), and `%.2f`
  formatting by round-half-to-even of the exact value;
* Go `int64` is modelled as `Int` (overflow out of scope);
* the `encoding/json` marshalling used by `saveToFile`/`loadFromFile` is
  modelled by an exact encoder for `json.MarshalIndent(data, "", "  ")` and a
  generic JSON parser plus the `json.Unmarshal` field-resolution rules for the
  two record types involved.
-/

namespace ExpressVPNSpeedTest

/-! ## Basic string helpers (kernel-reducible replacements for Go stdlib calls) -/

/-- ASCII lower-casing of one character.  Models `strings.ToLower` character
step for the ASCII inputs this program compares (full Unicode folding out of
scope). -/
def lowerChar (c : Char) : Char :=
  if 65 ≤ c.toNat ∧ c.toNat ≤ 90 then Char.ofNat (c.toNat + 32) else c

/-- Models `strings.ToLower`. -/
def strLower (s : String) : String := ⟨s.data.map lowerChar⟩

/-- Go `unicode.IsSpace` for the ASCII whitespace characters
(`strings.TrimSpace` cut set, ASCII fragment). -/
def isSpaceChar (c : Char) : Bool :=
  c = ' ' ∨ c = '\t' ∨ c = '\n' ∨ c = '\r' ∨ c = '\x0b' ∨ c = '\x0c'

/-- Models `strings.TrimSpace`. -/
def trimSpace (s : String) : String :=
  ⟨((s.data.dropWhile isSpaceChar).reverse.dropWhile isSpaceChar).reverse⟩

/-- Models `strings.TrimSuffix`. -/
def trimSuffix (s suffix : String) : String :=
  if suffix.data.isSuffixOf s.data then
    ⟨s.data.take (s.data.length - suffix.data.length)⟩
  else s

/-- Decimal digit value of a character, if it is a digit. -/
def digitVal? (c : Char) : Option Nat :=
  if 48 ≤ c.toNat ∧ c.toNat ≤ 57 then some (c.toNat - 48) else none

/-- Accumulating decimal parse of a digit run; fails on any non-digit. -/
def digitsToNat? : List Char → Nat → Option Nat
  | [], acc => some acc
  | c :: cs, acc =>
    match digitVal? c with
    | some d => digitsToNat? cs (acc * 10 + d)
    | none => none

/-- Parse of a nonempty all-digit run. -/
def parseDigits? : List Char → Option Nat
  | [] => none
  | cs => digitsToNat? cs 0

/-- Models `strconv.Atoi` with its error ignored, as the aggregation loops do
(`downloadSpeed, _ := strconv.Atoi(...)`): any parse failure yields 0.
Overflow of Go `int` is out of scope. -/
def atoi (s : String) : Int :=
  match s.data with
  | '-' :: cs =>
    match parseDigits? cs with
    | some n => -(n : Int)
    | none => 0
  | '+' :: cs =>
    match parseDigits? cs with
    | some n => (n : Int)
    | none => 0
  | cs =>
    match parseDigits? cs with
    | some n => (n : Int)
    | none => 0

/-- Round-half-to-even of the exact rational `a / b` (used with `b > 0`), the
rounding Go's `fmt` applies when formatting with `%.2f`. -/
def roundHalfEvenDiv (a : Int) (b : Nat) : Int :=
  let f := Int.fdiv a b
  let r := Int.emod a b
  if 2 * r < (b : Int) then f
  else if (b : Int) < 2 * r then f + 1
  else if f % 2 = 0 then f else f + 1

/-- Renders an integer number of hundredths as a fixed two-decimal string
(`2000 ↦ "20.00"`, `-5 ↦ "-0.05"`). -/
def fmtHundredths (n : Int) : String :=
  let a := n.natAbs
  (if n < 0 then "-" else "") ++ toString (a / 100) ++ "." ++
    (if a % 100 < 10 then "0" else "") ++ toString (a % 100)

/-- Models Go `fmt.Sprintf("%.2f", x)` for the exact rational value
`num / den` (`den > 0`).  The program only formats values obtained from exact
integer accumulation in `float64`, for which the float value is exact, so the
exact-rational model matches (binary double rounding of enormous values out of
scope). -/
def fmtF2 (num : Int) (den : Nat) : String :=
  fmtHundredths (roundHalfEvenDiv (num * 100) den)

/-- Models `fmt.Sprintf("%.2f", q)` for a rational-valued quantity such as the
ping latency. -/
def fmtRat2 (q : ℚ) : String := fmtF2 q.num q.den

/-! ## Data model (app.go 22-65) -/

/-- Input benchmark target (`Location`, app.go 22-25). -/
structure Location where
  country : String
  city : String
deriving DecidableEq

/-- One persisted row (`VPNStat`, app.go 38-47).  `Timestamp` carries the
`json:"Date/Time"` tag. -/
structure VPNStat where
  LocationName : String
  TimeToConnect : String
  VPNDownloadSpeed : String
  VPNUploadSpeed : String
  VPNLatency : String
  Server : String
  Timestamp : String
  Mode : String
deriving DecidableEq

/-- Go zero value of `VPNStat`. -/
def emptyVPNStat : VPNStat :=
  { LocationName := "", TimeToConnect := "", VPNDownloadSpeed := "",
    VPNUploadSpeed := "", VPNLatency := "", Server := "", Timestamp := "",
    Mode := "" }

instance : Inhabited VPNStat := ⟨emptyVPNStat⟩

/-- The results document (`Results`, app.go 31-36). -/
structure Results where
  MachineName : String
  OS : String
  WithoutVPN : String
  VPNStats : List VPNStat
deriving DecidableEq

/-- Go zero value of `Results` (what `loadFromFile` yields for a missing
file). -/
def emptyResults : Results :=
  { MachineName := "", OS := "", WithoutVPN := "", VPNStats := [] }

/-- Parsed output of one `speedtest` invocation (`SpeedTestResult`,
app.go 49-65).  `pingLatency` models the `float64` latency as an exact
rational; bandwidths are Go `int64` values. -/
structure SpeedTestResult where
  pingLatency : ℚ
  downloadBandwidth : Int
  uploadBandwidth : Int
  serverHost : String
  serverName : String
  serverCountry : String
  serverLocation : String
deriving DecidableEq

/-! ## Region resolution (app.go 332-351) -/

/-- The scan of `findRegion` over the region list returned by the VPN tool:
the first entry equal to either candidate wins, the country+city comparison
being made first on each entry. -/
def findRegionLoop (formattedLocation countryOnly : String) : List String → String
  | [] => ""
  | loc :: rest =>
    if loc = formattedLocation then formattedLocation
    else if loc = countryOnly then countryOnly
    else findRegionLoop formattedLocation countryOnly rest

/-- Shallow embedding of `findRegion` (app.go 332-351).  `regions` is the
outcome of `getCommandOutput` (app.go 413-426): `none` models a failed
`expressvpnctl get regions` invocation, `some out` the newline-split trimmed
output lines. -/
def findRegion (location : Location) (regions : Option (List String)) : String :=
  match regions with
  | none => ""
  | some commandOutput =>
    let formattedLocation := strLower location.country ++ "-" ++ strLower location.city
    let countryOnly := strLower location.country
    findRegionLoop formattedLocation countryOnly commandOutput

/-- The Region Resolver contract as the specification words it: the
country+city token is preferred over the country-only token whenever both
candidates appear anywhere in the available list. -/
def findRegionSpec (location : Location) (regions : Option (List String)) : String :=
  match regions with
  | none => ""
  | some available =>
    let formattedLocation := strLower location.country ++ "-" ++ strLower location.city
    let countryOnly := strLower location.country
    if formattedLocation ∈ available then formattedLocation
    else if countryOnly ∈ available then countryOnly
    else ""

/-! ## Measurement samples and aggregation (app.go 157-313) -/

/-- Go `fmt.Sprintf("%dMbps", bandwidth/125000)`: `int64` division truncates
toward zero. -/
def mbpsString (bandwidth : Int) : String :=
  toString (Int.tdiv bandwidth 125000) ++ "Mbps"

/-- The baseline string recorded into the package variable `speedWithoutVPN`
(app.go 199 / 277): `fmt.Sprintf("%dMbps ▼  %dMbps ▲", down/125000, up/125000)`. -/
def baselineString (result : SpeedTestResult) : String :=
  toString (Int.tdiv result.downloadBandwidth 125000) ++ "Mbps ▼  " ++
    toString (Int.tdiv result.uploadBandwidth 125000) ++ "Mbps ▲"

/-- Mode string stamped by the series path (app.go 209). -/
def seriesModeString : String := "Tests ran in series (one after another)"

/-- Mode string stamped by the parallel path (app.go 287). -/
def parallelModeString : String := "Tests ran in parallel"

/-- The `VPNStat` built from one successful sample (app.go 201-210 /
279-288).  `timestamp` is the formatted `time.Now()` of that invocation,
supplied as an input of the embedding. -/
def buildVPNStat (connectionTime timestamp mode : String)
    (result : SpeedTestResult) : VPNStat :=
  { LocationName := result.serverCountry ++ ", " ++ result.serverLocation,
    TimeToConnect := connectionTime,
    VPNDownloadSpeed := mbpsString result.downloadBandwidth,
    VPNUploadSpeed := mbpsString result.uploadBandwidth,
    VPNLatency := fmtRat2 result.pingLatency ++ "ms",
    Server := result.serverHost,
    Timestamp := timestamp,
    Mode := mode }

/-- One step of the averaging loop shared verbatim by `speedTest`
(app.go 217-224) and `runParallelSpeedTests` (app.go 299-306): parse the
per-sample speed strings back with `strconv.Atoi` after trimming the
`"Mbps"` suffix, accumulate totals and count, and keep the current stat as
the carrier of the descriptive fields. -/
def aggStep (acc : Int × Int × Nat × VPNStat) (stat : VPNStat) :
    Int × Int × Nat × VPNStat :=
  (acc.1 + atoi (trimSuffix stat.VPNDownloadSpeed "Mbps"),
   acc.2.1 + atoi (trimSuffix stat.VPNUploadSpeed "Mbps"),
   acc.2.2.1 + 1, stat)

/-- The aggregation step shared by both measurement paths (app.go 215-231 and
297-313): averages the parsed download/upload speeds over the batch and
formats them with `%.2f` plus an `"Mbps"` suffix; every other field comes from
the stat kept by the last loop iteration.  Yields `none` (nothing passed to
`writeToFile`) when the batch has no samples. -/
def aggregate (vpnStats : List VPNStat) : Option VPNStat :=
  let res := vpnStats.foldl aggStep (0, 0, 0, emptyVPNStat)
  if 0 < res.2.2.1 then
    some { res.2.2.2 with
      VPNDownloadSpeed := fmtF2 res.1 res.2.2.1 ++ "Mbps",
      VPNUploadSpeed := fmtF2 res.2.1 res.2.2.1 ++ "Mbps" }
  else none

/-- Shallow embedding of the measurement loop of `speedTest` (app.go 167-213).
Each entry of `outcomes` is one `speedtest` invocation: `none` models a failed
command or unparseable output (which makes `speedTest` return immediately),
`some (result, ts)` a successful invocation with formatted timestamp `ts`.
Returns the final value of the `speedWithoutVPN` package variable together
with `some` collected stats when the loop ran to completion, or `none` when a
failure aborted `speedTest` before the aggregation step. -/
def seriesLoop (connectionTime : String) :
    String → List (Option (SpeedTestResult × String)) →
      String × Option (List VPNStat)
  | baseline, [] => (baseline, some [])
  | baseline, none :: _ => (baseline, none)
  | baseline, some (result, ts) :: rest =>
    if connectionTime = "" then
      seriesLoop connectionTime (baselineString result) rest
    else
      match seriesLoop connectionTime baseline rest with
      | (b, none) => (b, none)
      | (b, some stats) =>
        (b, some (buildVPNStat connectionTime ts seriesModeString result :: stats))

/-- The samples `speedTest` actually aggregates: empty when the loop aborted
early (the partially collected stats never reach the aggregation code). -/
def seriesSamples (connectionTime baseline : String)
    (outcomes : List (Option (SpeedTestResult × String))) : List VPNStat :=
  match (seriesLoop connectionTime baseline outcomes).2 with
  | none => []
  | some stats => stats

/-- Whole-call embedding of `speedTest` (app.go 158-231): final baseline
variable value, and the stat handed to `writeToFile` if any. -/
def speedTestStat (connectionTime baseline : String)
    (outcomes : List (Option (SpeedTestResult × String))) :
    String × Option VPNStat :=
  match seriesLoop connectionTime baseline outcomes with
  | (b, none) => (b, none)
  | (b, some stats) => (b, aggregate stats)

/-- The stats drained from the results channel of `runParallelSpeedTests`
(app.go 248-295), in drain order (goroutine scheduling is abstracted by the
order of `outcomes`); a failed invocation contributes nothing. -/
def parallelCollect (connectionTime : String)
    (outcomes : List (Option (SpeedTestResult × String))) : List VPNStat :=
  if connectionTime = "" then []
  else outcomes.filterMap
    (fun o => o.map (fun p => buildVPNStat connectionTime p.2 parallelModeString p.1))

/-- The final value of `speedWithoutVPN` after a parallel batch: each
successful baseline goroutine overwrites it, so the last success in drain
order wins; VPN batches leave it untouched. -/
def parallelBaseline (connectionTime baseline : String)
    (outcomes : List (Option (SpeedTestResult × String))) : String :=
  if connectionTime = "" then
    outcomes.foldl
      (fun b o => match o with
        | some (result, _) => baselineString result
        | none => b) baseline
  else baseline

/-- Whole-call embedding of `runParallelSpeedTests` (app.go 234-313). -/
def parallelStat (connectionTime baseline : String)
    (outcomes : List (Option (SpeedTestResult × String))) :
    String × Option VPNStat :=
  (parallelBaseline connectionTime baseline outcomes,
   aggregate (parallelCollect connectionTime outcomes))

/-- One measurement batch as dispatched by `main` (app.go 119-125 and
144-150): the series path when the `-s` flag is set, the parallel path
otherwise. -/
def batchStat (seriesFlag : Bool) (connectionTime baseline : String)
    (outcomes : List (Option (SpeedTestResult × String))) :
    String × Option VPNStat :=
  if seriesFlag then speedTestStat connectionTime baseline outcomes
  else parallelStat connectionTime baseline outcomes

/-! ## Connection lifecycle (app.go 429-460) -/

/-- Models `time.Duration.Round(time.Millisecond)` for the nonnegative
durations produced by `time.Since`: round half away from zero to the nearest
multiple of one million nanoseconds. -/
def roundMillis (d : Nat) : Nat :=
  let r := d % 1000000
  if r + r < 1000000 then d - r else d - r + 1000000

/-- Models `waitForConnection` (app.go 448-460).  `polls` lists the successive
outcomes of the `expressvpnctl get connectionstate` queries (`none` = the
command errored).  The result is the number of queries issued up to and
including the first observation of `Connected`, or `none` when no queried
state ever matches (the Go loop then never returns). -/
def waitForConnection (polls : List (Option String)) : Option Nat :=
  match polls.findIdx?
      (fun o => match o with
        | some out => trimSpace out = "Connected"
        | none => false) with
  | some i => some (i + 1)
  | none => none

/-- Shallow embedding of `connectToVPN` (app.go 429-439).  `connectExitOk`
models the exit status of `expressvpnctl connect`; `elapsedNs` the value of
`time.Since(start)` in nanoseconds once the poll loop returns.  First
component: `some (.error ())` for the immediate error return, `some (.ok d)`
for a successful return of the rounded duration, `none` when the poll loop
never returns.  Second component: number of connection-state queries
issued. -/
def connectToVPN (connectExitOk : Bool) (polls : List (Option String))
    (elapsedNs : Nat) : Option (Except Unit Nat) × Nat :=
  if connectExitOk then
    match waitForConnection polls with
    | some queries => (some (Except.ok (roundMillis elapsedNs)), queries)
    | none => (none, polls.length)
  else (some (Except.error ()), 0)

/-! ## Duration rendering (Go `time.Duration.String`) -/

/-- Left-pads a string with zeros to the given width. -/
def padZeros (width : Nat) (s : String) : String :=
  ⟨List.replicate (width - s.data.length) '0' ++ s.data⟩

/-- Drops trailing `'0'` characters. -/
def dropTrailingZeros (cs : List Char) : List Char :=
  (cs.reverse.dropWhile (fun c => c = '0')).reverse

/-- The fraction-printing step of Go `time.Duration.String` (`fmtFrac`):
renders `v` in units of `10^prec`, returning the fractional suffix (with
trailing zeros trimmed, empty when the remainder is zero) and the integer
quotient. -/
def fmtFrac (v : Nat) (prec : Nat) : String × Nat :=
  let p := 10 ^ prec
  if v % p = 0 then ("", v / p)
  else ("." ++ ⟨dropTrailingZeros (padZeros prec (toString (v % p))).data⟩, v / p)

/-- Models Go `time.Duration.String()` for the nonnegative durations this
program produces (`connectTime.String()`, app.go 146/149); `d` in
nanoseconds. -/
def durationString (d : Nat) : String :=
  if d = 0 then "0s"
  else if d < 1000 then toString d ++ "ns"
  else if d < 1000000 then
    let fr := fmtFrac d 3
    toString fr.2 ++ fr.1 ++ "µs"
  else if d < 1000000000 then
    let fr := fmtFrac d 6
    toString fr.2 ++ fr.1 ++ "ms"
  else
    let fr := fmtFrac d 9
    let base := toString (fr.2 % 60) ++ fr.1 ++ "s"
    if fr.2 / 60 = 0 then base
    else if fr.2 / 60 / 60 = 0 then toString (fr.2 / 60 % 60) ++ "m" ++ base
    else toString (fr.2 / 60 / 60) ++ "h" ++ toString (fr.2 / 60 % 60) ++ "m" ++ base

/-! ## JSON encoding (model of `json.MarshalIndent(data, "", "  ")`,
app.go 404-410) -/

/-- Lowercase hexadecimal digit, as used by `encoding/json` escapes. -/
def hexDigitChar (n : Nat) : Char :=
  if n < 10 then Char.ofNat (48 + n) else Char.ofNat (87 + n)

/-- Go `encoding/json` escaping of one character inside a string literal
(default HTML-escaping encoder): `"` and `\` are backslash-escaped, `\n`,
`\r`, `\t` use their short forms, other control characters use `\u00XX`
(lowercase hex), `<`, `>`, `&` use `<`, `>`, `&`, and the line
separators U+2028/U+2029 use ` `/` `; everything else is emitted
verbatim. -/
def escChar (c : Char) : List Char :=
  if c = '"' then ['\\', '"']
  else if c = '\\' then ['\\', '\\']
  else if c = '\n' then ['\\', 'n']
  else if c = '\r' then ['\\', 'r']
  else if c = '\t' then ['\\', 't']
  else if c = '<' then ['\\', 'u', '0', '0', '3', 'c']
  else if c = '>' then ['\\', 'u', '0', '0', '3', 'e']
  else if c = '&' then ['\\', 'u', '0', '0', '2', '6']
  else if c.toNat < 32 then
    ['\\', 'u', '0', '0', hexDigitChar (c.toNat / 16), hexDigitChar (c.toNat % 16)]
  else if c = ' ' then ['\\', 'u', '2', '0', '2', '8']
  else if c = ' ' then ['\\', 'u', '2', '0', '2', '9']
  else [c]

/-- A Go-escaped JSON string literal, quotes included, as a character list. -/
def encStringChars (s : String) : List Char :=
  '"' :: (s.data.flatMap escChar ++ ['"'])

/-- Character list of a string literal (plain shorthand). -/
def strChars (s : String) : List Char := s.data

/-- One `"key": "value"` member with both sides encoded. -/
def encFieldChars (key value : String) : List Char :=
  encStringChars key ++ strChars ": " ++ encStringChars value

/-- One `VPNStat` element as `MarshalIndent` lays it out inside the
`VPNStats` array (element indent 4 spaces, member indent 6 spaces); field
order is Go struct order, with the `Date/Time` key for `Timestamp`. -/
def encStatChars (st : VPNStat) : List Char :=
  strChars "\x7b\n      " ++ encFieldChars "LocationName" st.LocationName ++
  strChars ",\n      " ++ encFieldChars "TimeToConnect" st.TimeToConnect ++
  strChars ",\n      " ++ encFieldChars "VPNDownloadSpeed" st.VPNDownloadSpeed ++
  strChars ",\n      " ++ encFieldChars "VPNUploadSpeed" st.VPNUploadSpeed ++
  strChars ",\n      " ++ encFieldChars "VPNLatency" st.VPNLatency ++
  strChars ",\n      " ++ encFieldChars "Server" st.Server ++
  strChars ",\n      " ++ encFieldChars "Date/Time" st.Timestamp ++
  strChars ",\n      " ++ encFieldChars "Mode" st.Mode ++
  strChars "\n    \x7d"

/-- Second and later array elements, each preceded by a comma and the element
indentation. -/
def encStatsTail : List VPNStat → List Char
  | [] => []
  | st :: rest => strChars ",\n    " ++ encStatChars st ++ encStatsTail rest

/-- The `VPNStats` array as `MarshalIndent` lays it out (`[]` when empty). -/
def encStatsArr : List VPNStat → List Char
  | [] => strChars "[]"
  | st :: rest => strChars "[\n    " ++ encStatChars st ++ encStatsTail rest ++ strChars "\n  ]"

/-- Exact model of `json.MarshalIndent(data, "", "  ")` on a `Results` value,
the contents `saveToFile` writes (app.go 404-410). -/
def marshalResults (data : Results) : String :=
  ⟨strChars "\x7b\n  " ++ encFieldChars "MachineName" data.MachineName ++
   strChars ",\n  " ++ encFieldChars "OS" data.OS ++
   strChars ",\n  " ++ encFieldChars "WithoutVPN" data.WithoutVPN ++
   strChars ",\n  " ++ encStringChars "VPNStats" ++ strChars ": " ++
   encStatsArr data.VPNStats ++ strChars "\n\x7d"⟩

/-! ## JSON parsing (model of `json.Unmarshal`, app.go 390-401) -/

/-- Generic JSON value.  Number tokens keep their lexeme: the `Results`
schema has no numeric field, so a number can only appear under an unknown key,
where `Unmarshal` merely syntax-checks it. -/
inductive JValue where
  | null : JValue
  | jbool (b : Bool) : JValue
  | jnum (lexeme : String) : JValue
  | jstr (s : String) : JValue
  | jarr (elems : List JValue) : JValue
  | jobj (fields : List (String × JValue)) : JValue

/-- JSON insignificant whitespace skipping. -/
def skipWs : List Char → List Char
  | [] => []
  | c :: cs => if c = ' ' ∨ c = '\t' ∨ c = '\n' ∨ c = '\r' then skipWs cs else c :: cs

/-- Hexadecimal digit value. -/
def hexVal? (c : Char) : Option Nat :=
  if 48 ≤ c.toNat ∧ c.toNat ≤ 57 then some (c.toNat - 48)
  else if 97 ≤ c.toNat ∧ c.toNat ≤ 102 then some (c.toNat - 87)
  else if 65 ≤ c.toNat ∧ c.toNat ≤ 70 then some (c.toNat - 55)
  else none

/-- Value of a four-hex-digit escape. -/
def hex4? (a b c d : Char) : Option Nat :=
  match hexVal? a, hexVal? b, hexVal? c, hexVal? d with
  | some x, some y, some z, some w => some (((x * 16 + y) * 16 + z) * 16 + w)
  | _, _, _, _ => none

/-- Prepends a decoded code point to a string-body parse result. -/
def consCont (n : Nat) (o : Option (List Nat × List Char)) :
    Option (List Nat × List Char) :=
  o.map (fun p => (n :: p.1, p.2))

/-- Body of a JSON string literal, after its opening quote: returns the
decoded code points (a `\uXXXX` escape contributes its raw value, possibly a
surrogate half) and the input following the closing quote.  Go's short
escapes are accepted, unescaped control characters are rejected (malformed
escapes too).  Fuel-indexed (every step consumes at least one input
character, so callers pass `length + 1`, which can never run out). -/
def parseStrBody : Nat → List Char → Option (List Nat × List Char)
  | 0, _ => none
  | _ + 1, [] => none
  | fuel + 1, c :: rest =>
    if c = '"' then some ([], rest)
    else if c = '\\' then
      match rest with
      | '"' :: r2 => consCont 34 (parseStrBody fuel r2)
      | '\\' :: r2 => consCont 92 (parseStrBody fuel r2)
      | '/' :: r2 => consCont 47 (parseStrBody fuel r2)
      | 'b' :: r2 => consCont 8 (parseStrBody fuel r2)
      | 'f' :: r2 => consCont 12 (parseStrBody fuel r2)
      | 'n' :: r2 => consCont 10 (parseStrBody fuel r2)
      | 'r' :: r2 => consCont 13 (parseStrBody fuel r2)
      | 't' :: r2 => consCont 9 (parseStrBody fuel r2)
      | 'u' :: a :: b :: c2 :: d :: r2 =>
        match hex4? a b c2 d with
        | none => none
        | some n => consCont n (parseStrBody fuel r2)
      | _ => none
    else if c.toNat < 32 then none
    else consCont c.toNat (parseStrBody fuel rest)

/-- Decoding of a single code-point unit outside a surrogate pair: a stray
surrogate half becomes U+FFFD, anything else stands for itself. -/
def decodeLone (n : Nat) : Char :=
  if n < 55296 ∨ 57344 ≤ n then Char.ofNat n else '�'

/-- Surrogate combination pass of Go's string unquoting: an adjacent
high/low surrogate pair (which can only arise from `\u` escapes) becomes one
supplementary character; a stray surrogate half becomes U+FFFD; every other
code point stands for itself. -/
def combineSurrogates : List Nat → List Char
  | [] => []
  | [n] => [decodeLone n]
  | n :: m :: rest =>
    if (55296 ≤ n ∧ n < 56320) ∧ (56320 ≤ m ∧ m < 57344) then
      Char.ofNat (65536 + (n - 55296) * 1024 + (m - 56320)) :: combineSurrogates rest
    else decodeLone n :: combineSurrogates (m :: rest)

/-- Decimal-digit test. -/
def isDigitChar (c : Char) : Bool := 48 ≤ c.toNat ∧ c.toNat ≤ 57

/-- The digit run after the integer part's first digit, per the JSON number
grammar: a leading `0` must not be followed by further digits. -/
def numIntRest (cs : List Char) : Option (List Char × List Char) :=
  match cs with
  | c :: rest =>
    if c = '0' then
      match rest with
      | d :: _ => if isDigitChar d then none else some (['0'], rest)
      | [] => some (['0'], [])
    else if isDigitChar c then
      let sp := rest.span isDigitChar
      some (c :: sp.1, sp.2)
    else none
  | [] => none

/-- Optional fraction part (`.` followed by at least one digit). -/
def numFrac (cs : List Char) : Option (List Char × List Char) :=
  match cs with
  | '.' :: rest =>
    match rest.span isDigitChar with
    | ([], _) => none
    | (ds, rest2) => some ('.' :: ds, rest2)
  | _ => some ([], cs)

/-- Optional exponent part (`e`/`E`, optional sign, at least one digit). -/
def numExp (cs : List Char) : Option (List Char × List Char) :=
  match cs with
  | c :: rest =>
    if c = 'e' ∨ c = 'E' then
      match rest with
      | s :: rest1 =>
        if s = '+' ∨ s = '-' then
          match rest1.span isDigitChar with
          | ([], _) => none
          | (ds, rest2) => some (c :: s :: ds, rest2)
        else
          match rest.span isDigitChar with
          | ([], _) => none
          | (ds, rest2) => some (c :: ds, rest2)
      | [] => none
    else some ([], cs)
  | [] => some ([], cs)

/-- JSON number token: lexeme and remaining input. -/
def parseNumberLex (cs : List Char) : Option (List Char × List Char) :=
  let core := fun (cs1 : List Char) (sign : List Char) =>
    match numIntRest cs1 with
    | none => none
    | some (ip, rest1) =>
      match numFrac rest1 with
      | none => none
      | some (fp, rest2) =>
        match numExp rest2 with
        | none => none
        | some (ep, rest3) => some (sign ++ ip ++ fp ++ ep, rest3)
  match cs with
  | '-' :: rest => core rest ['-']
  | _ => core cs []

mutual

/-- Generic JSON value parser (fuel-indexed; every recursive call spends one
unit of fuel, and one unit is spent only after at least one input character
has been committed, so fuel `length + 1` always suffices). -/
def parseJValue : Nat → List Char → Option (JValue × List Char)
  | 0, _ => none
  | fuel + 1, cs =>
    match skipWs cs with
    | [] => none
    | '"' :: rest =>
      (parseStrBody (rest.length + 1) rest).map
        (fun p => (JValue.jstr ⟨combineSurrogates p.1⟩, p.2))
    | '{' :: rest => (parseObjBody fuel rest).map (fun p => (JValue.jobj p.1, p.2))
    | '[' :: rest => (parseArrBody fuel rest).map (fun p => (JValue.jarr p.1, p.2))
    | 't' :: 'r' :: 'u' :: 'e' :: rest => some (JValue.jbool true, rest)
    | 'f' :: 'a' :: 'l' :: 's' :: 'e' :: rest => some (JValue.jbool false, rest)
    | 'n' :: 'u' :: 'l' :: 'l' :: rest => some (JValue.null, rest)
    | other => (parseNumberLex other).map (fun p => (JValue.jnum ⟨p.1⟩, p.2))

/-- Array contents after `[`. -/
def parseArrBody : Nat → List Char → Option (List JValue × List Char)
  | 0, _ => none
  | fuel + 1, cs =>
    match skipWs cs with
    | ']' :: rest => some ([], rest)
    | cs1 =>
      match parseJValue fuel cs1 with
      | none => none
      | some (v, rest) =>
        match parseArrRest fuel rest with
        | none => none
        | some (vs, rest2) => some (v :: vs, rest2)

/-- Array continuation: `,` and a value, or the closing `]`. -/
def parseArrRest : Nat → List Char → Option (List JValue × List Char)
  | 0, _ => none
  | fuel + 1, cs =>
    match skipWs cs with
    | ']' :: rest => some ([], rest)
    | ',' :: rest =>
      match parseJValue fuel rest with
      | none => none
      | some (v, rest1) =>
        match parseArrRest fuel rest1 with
        | none => none
        | some (vs, rest2) => some (v :: vs, rest2)
    | _ => none

/-- One `"key": value` object member (leading whitespace allowed). -/
def parseMember : Nat → List Char → Option ((String × JValue) × List Char)
  | 0, _ => none
  | fuel + 1, cs =>
    match skipWs cs with
    | '"' :: rest =>
      match parseStrBody (rest.length + 1) rest with
      | none => none
      | some (key, rest1) =>
        match skipWs rest1 with
        | ':' :: rest2 =>
          (parseJValue fuel rest2).map
            (fun p => ((⟨combineSurrogates key⟩, p.1), p.2))
        | _ => none
    | _ => none

/-- Object contents after `{`. -/
def parseObjBody : Nat → List Char → Option (List (String × JValue) × List Char)
  | 0, _ => none
  | fuel + 1, cs =>
    match skipWs cs with
    | '}' :: rest => some ([], rest)
    | _ =>
      match parseMember fuel cs with
      | none => none
      | some (kv, rest) =>
        match parseObjRest fuel rest with
        | none => none
        | some (fs, rest2) => some (kv :: fs, rest2)

/-- Object continuation: `,` and a member, or the closing `}`. -/
def parseObjRest : Nat → List Char → Option (List (String × JValue) × List Char)
  | 0, _ => none
  | fuel + 1, cs =>
    match skipWs cs with
    | '}' :: rest => some ([], rest)
    | ',' :: rest =>
      match parseMember fuel rest with
      | none => none
      | some (kv, rest2) =>
        match parseObjRest fuel rest2 with
        | none => none
        | some (fs, rest3) => some (kv :: fs, rest3)
    | _ => none

end

/-! ## Unmarshalling into the Go structs (model of `json.Unmarshal` field
resolution for `Results` and `VPNStat`) -/

/-- Go `encoding/json` key-to-field resolution: an exact match, or a
case-insensitive one (`strings.EqualFold`, ASCII fragment). -/
def keyMatches (key field : String) : Bool :=
  key = field ∨ strLower key = strLower field

/-- Decoding a JSON value into a `string` field: a string literal replaces
the value, `null` leaves the field untouched, anything else is a type
error. -/
def decodeStringInto (v : JValue) (current : String) : Option String :=
  match v with
  | JValue.jstr s => some s
  | JValue.null => some current
  | _ => none

/-- Applies one object member to a `VPNStat` being decoded; unknown keys are
ignored, later duplicates overwrite. -/
def applyStatField (st : VPNStat) (kv : String × JValue) : Option VPNStat :=
  if keyMatches kv.1 "LocationName" then
    (decodeStringInto kv.2 st.LocationName).map (fun s => { st with LocationName := s })
  else if keyMatches kv.1 "TimeToConnect" then
    (decodeStringInto kv.2 st.TimeToConnect).map (fun s => { st with TimeToConnect := s })
  else if keyMatches kv.1 "VPNDownloadSpeed" then
    (decodeStringInto kv.2 st.VPNDownloadSpeed).map (fun s => { st with VPNDownloadSpeed := s })
  else if keyMatches kv.1 "VPNUploadSpeed" then
    (decodeStringInto kv.2 st.VPNUploadSpeed).map (fun s => { st with VPNUploadSpeed := s })
  else if keyMatches kv.1 "VPNLatency" then
    (decodeStringInto kv.2 st.VPNLatency).map (fun s => { st with VPNLatency := s })
  else if keyMatches kv.1 "Server" then
    (decodeStringInto kv.2 st.Server).map (fun s => { st with Server := s })
  else if keyMatches kv.1 "Date/Time" then
    (decodeStringInto kv.2 st.Timestamp).map (fun s => { st with Timestamp := s })
  else if keyMatches kv.1 "Mode" then
    (decodeStringInto kv.2 st.Mode).map (fun s => { st with Mode := s })
  else some st

/-- Decoding a JSON value into a `VPNStat` slot (starting from the given
current value; array elements start from the zero value). -/
def decodeVPNStat (v : JValue) (current : VPNStat) : Option VPNStat :=
  match v with
  | JValue.jobj fields => fields.foldlM applyStatField current
  | JValue.null => some current
  | _ => none

/-- Decoding a JSON value into the `[]VPNStat` field: an array replaces the
slice with freshly decoded elements, `null` leaves it untouched. -/
def decodeStatsInto (v : JValue) (current : List VPNStat) :
    Option (List VPNStat) :=
  match v with
  | JValue.jarr elems => elems.mapM (fun e => decodeVPNStat e emptyVPNStat)
  | JValue.null => some current
  | _ => none

/-- Applies one object member to a `Results` being decoded. -/
def applyResultsField (data : Results) (kv : String × JValue) : Option Results :=
  if keyMatches kv.1 "MachineName" then
    (decodeStringInto kv.2 data.MachineName).map (fun s => { data with MachineName := s })
  else if keyMatches kv.1 "OS" then
    (decodeStringInto kv.2 data.OS).map (fun s => { data with OS := s })
  else if keyMatches kv.1 "WithoutVPN" then
    (decodeStringInto kv.2 data.WithoutVPN).map (fun s => { data with WithoutVPN := s })
  else if keyMatches kv.1 "VPNStats" then
    (decodeStatsInto kv.2 data.VPNStats).map (fun l => { data with VPNStats := l })
  else some data

/-- Decoding a parsed JSON document into `Results` (the target of
`json.Unmarshal(file, &data)`, app.go 399). -/
def decodeResults (v : JValue) : Option Results :=
  match v with
  | JValue.jobj fields => fields.foldlM applyResultsField emptyResults
  | JValue.null => some emptyResults
  | _ => none

/-- Whole-document model of `json.Unmarshal` into `Results`: parse (with
fuel `length + 1`, which the parser never exhausts on inputs it accepts),
require only trailing whitespace, then decode. -/
def parseResultsDoc (contents : String) : Option Results :=
  match parseJValue (contents.data.length + 1) contents.data with
  | some (v, rest) => if skipWs rest = [] then decodeResults v else none
  | none => none

/-- The JSON value `marshalResults` denotes for one `VPNStat`. -/
def statJ (st : VPNStat) : JValue :=
  JValue.jobj
    [("LocationName", JValue.jstr st.LocationName),
     ("TimeToConnect", JValue.jstr st.TimeToConnect),
     ("VPNDownloadSpeed", JValue.jstr st.VPNDownloadSpeed),
     ("VPNUploadSpeed", JValue.jstr st.VPNUploadSpeed),
     ("VPNLatency", JValue.jstr st.VPNLatency),
     ("Server", JValue.jstr st.Server),
     ("Date/Time", JValue.jstr st.Timestamp),
     ("Mode", JValue.jstr st.Mode)]

/-- The JSON value `marshalResults` denotes for a whole document. -/
def docJ (data : Results) : JValue :=
  JValue.jobj
    [("MachineName", JValue.jstr data.MachineName),
     ("OS", JValue.jstr data.OS),
     ("WithoutVPN", JValue.jstr data.WithoutVPN),
     ("VPNStats", JValue.jarr (data.VPNStats.map statJ))]

/-! ## File operations (app.go 354-410) -/

/-- Shallow embedding of `loadFromFile` (app.go 390-401).  The file is
modelled by its contents (`none` = the file does not exist, which Go maps to
the empty document with no error); read errors other than nonexistence are
out of scope. -/
def loadFromFile (file : Option String) : Except Unit Results :=
  match file with
  | none => Except.ok emptyResults
  | some contents =>
    match parseResultsDoc contents with
    | some data => Except.ok data
    | none => Except.error ()

/-- Shallow embedding of `saveToFile` (app.go 404-410): the new file
contents (writes are modelled as succeeding; `os.WriteFile` errors are out of
scope). -/
def saveToFile (data : Results) : String := marshalResults data

/-- Machine-identity inputs of `writeToFile`: the outcome of `os.Hostname()`
(`none` = error, which aborts the write), `runtime.GOOS`, and the
`GetOSVersion()` string. -/
structure MachineEnv where
  hostname : Option String
  goos : String
  osVersion : String

/-- Shallow embedding of `writeToFile` (app.go 354-387) acting on the raw
results-file contents.  `speedWithoutVPN` is the current value of the package
variable of the same name.  Load failures and hostname failures leave the
file unchanged (the function returns after logging); otherwise a document
whose `MachineName` is empty is replaced by a fresh one carrying the machine
identity and baseline, the new stat is appended, and the document is saved.
The `fileMutex` serialization is implicit in the sequential threading of the
file state. -/
def writeToFile (menv : MachineEnv) (speedWithoutVPN : String)
    (newStats : VPNStat) (file : Option String) : Option String :=
  match loadFromFile file with
  | Except.error _ => file
  | Except.ok data =>
    if data.MachineName = "" then
      match menv.hostname with
      | none => file
      | some hostname =>
        let fresh : Results :=
          { MachineName := hostname,
            OS := menv.goos ++ ": " ++ menv.osVersion,
            WithoutVPN := speedWithoutVPN,
            VPNStats := [] }
        some (saveToFile { fresh with VPNStats := fresh.VPNStats ++ [newStats] })
    else some (saveToFile { data with VPNStats := data.VPNStats ++ [newStats] })

/-- Iterated `writeToFile` calls with a fixed machine environment and
baseline (one per aggregated stat, in order). -/
def writesFold (menv : MachineEnv) (speedWithoutVPN : String)
    (stats : List VPNStat) (file : Option String) : Option String :=
  stats.foldl (fun fs st => writeToFile menv speedWithoutVPN st fs) file

/-! ## Orchestrator (app.go 71-155) -/

/-- Per-location external-world inputs of the driver loop. -/
structure LocEnv where
  regions : Option (List String)
  connectExitOk : Bool
  polls : List (Option String)
  elapsedNs : Nat
  outcomes : List (Option (SpeedTestResult × String))

/-- External VPN-tool commands issued by the driver loop, in order. -/
inductive VpnCmd where
  | getRegions : VpnCmd
  | connectCmd (region : String) : VpnCmd
  | getStateCmd : VpnCmd
  | disconnectCmd : VpnCmd
deriving DecidableEq

/-- What happened at one location of the driver loop. -/
inductive LocEvent where
  | noRegion : LocEvent
  | connectFailed : LocEvent
  | hung : LocEvent
  | completed (persisted : Option VPNStat) : LocEvent
deriving DecidableEq

/-- The stat a location event persisted, if any. -/
def persistedOf : LocEvent → Option VPNStat
  | LocEvent.completed s => s
  | _ => none

/-- The driver loop over locations (app.go 128-154), threading the
`speedWithoutVPN` variable and the results-file contents, and recording
per-location events and the trace of VPN-tool commands.  A location whose
region does not resolve is skipped; a failed connect is skipped without a
disconnect; a poll loop that never observes `Connected` hangs the program
(no further location is processed). -/
def runLocs (menv : MachineEnv) (seriesFlag : Bool) :
    String → Option String → List (Location × LocEnv) →
      (String × Option String) × List LocEvent × List VpnCmd
  | baseline, fs, [] => ((baseline, fs), [], [])
  | baseline, fs, (loc, lenv) :: rest =>
    let region := findRegion loc lenv.regions
    if region = "" then
      let r := runLocs menv seriesFlag baseline fs rest
      (r.1, LocEvent.noRegion :: r.2.1, VpnCmd.getRegions :: r.2.2)
    else
      match connectToVPN lenv.connectExitOk lenv.polls lenv.elapsedNs with
      | (some (Except.error _), _) =>
        let r := runLocs menv seriesFlag baseline fs rest
        (r.1, LocEvent.connectFailed :: r.2.1,
         VpnCmd.getRegions :: VpnCmd.connectCmd region :: r.2.2)
      | (none, n) =>
        ((baseline, fs), [LocEvent.hung],
         VpnCmd.getRegions :: VpnCmd.connectCmd region ::
           List.replicate n VpnCmd.getStateCmd)
      | (some (Except.ok d), n) =>
        let bs := batchStat seriesFlag (durationString d) baseline lenv.outcomes
        let fs1 := match bs.2 with
          | some stat => writeToFile menv bs.1 stat fs
          | none => fs
        let r := runLocs menv seriesFlag bs.1 fs1 rest
        (r.1, LocEvent.completed bs.2 :: r.2.1,
         VpnCmd.getRegions :: VpnCmd.connectCmd region ::
           (List.replicate n VpnCmd.getStateCmd ++ VpnCmd.disconnectCmd :: r.2.2))

/-- External-world inputs of one whole program run. -/
structure RunEnv where
  machine : MachineEnv
  seriesFlag : Bool
  baselineOutcomes : List (Option (SpeedTestResult × String))
  locations : List (Location × LocEnv)

/-- Whole-run model of `main` after input parsing (app.go 119-154): the
baseline batch (empty connection tag) runs first, then the location loop.
The results file starts nonexistent (its name is timestamped at process
start). -/
def runModel (env : RunEnv) :
    (String × Option String) × List LocEvent × List VpnCmd :=
  let b0 := batchStat env.seriesFlag "" "" env.baselineOutcomes
  let fs0 := match b0.2 with
    | some stat => writeToFile env.machine b0.1 stat none
    | none => none
  runLocs env.machine env.seriesFlag b0.1 fs0 env.locations

/-! ## Helper lemmas -/

/-- Rebuilding a string from its character list is the identity. -/
theorem string_mk_data (s : String) : (⟨s.data⟩ : String) = s := rfl

/-- A character's code point is never a surrogate half. -/
theorem char_toNat_not_surrogate (c : Char) :
    c.toNat < 55296 ∨ 57344 ≤ c.toNat := by
  have h := c.valid
  have he : c.toNat = c.val.toNat := rfl
  rcases h with h | h
  · exact Or.inl (by omega)
  · exact Or.inr (by omega)

/-- The surrogate-combination pass is the identity on the code points of
actual characters. -/
theorem combineSurrogates_map_toNat (l : List Char) :
    combineSurrogates (l.map Char.toNat) = l := by
  induction l with
  | nil => rfl
  | cons c cs ih =>
    cases cs with
    | nil =>
      simp only [List.map_cons, List.map_nil, combineSurrogates, decodeLone]
      rw [if_pos (char_toNat_not_surrogate c), Char.ofNat_toNat]
    | cons d ds =>
      simp only [List.map_cons, combineSurrogates]
      rw [if_neg, decodeLone, if_pos (char_toNat_not_surrogate c), Char.ofNat_toNat]
      · rw [← List.map_cons]
        rw [ih]
      · rcases char_toNat_not_surrogate c with h | h <;> omega

/-- `hexVal?` inverts `hexDigitChar` on digit values. -/
theorem hexVal_hexDigitChar (n : Nat) (h : n < 16) :
    hexVal? (hexDigitChar n) = some n := by
  interval_cases n <;> rfl

/-- Step equation for the `\uXXXX` escape case of `parseStrBody`. -/
theorem parseStrBody_u_step (f : Nat) (a b : Char) (n : Nat) (t : List Char)
    (h : hex4? '0' '0' a b = some n) :
    parseStrBody (f + 1) ('\\' :: 'u' :: '0' :: '0' :: a :: b :: t) =
      consCont n (parseStrBody f t) := by
  have base : parseStrBody (f + 1) ('\\' :: 'u' :: '0' :: '0' :: a :: b :: t) =
      (match hex4? '0' '0' a b with
       | none => none
       | some n => consCont n (parseStrBody f t)) := rfl
  rw [base, h]

/-- The escape sequence of any character is nonempty. -/
theorem escChar_length_pos (c : Char) : 0 < (escChar c).length := by
  by_cases h1 : c = '"'
  · subst h1; decide
  by_cases h2 : c = '\\'
  · subst h2; decide
  by_cases h3 : c = '\n'
  · subst h3; decide
  by_cases h4 : c = '\r'
  · subst h4; decide
  by_cases h5 : c = '\t'
  · subst h5; decide
  by_cases h6 : c = '<'
  · subst h6; decide
  by_cases h7 : c = '>'
  · subst h7; decide
  by_cases h8 : c = '&'
  · subst h8; decide
  by_cases h9 : c.toNat < 32
  · rw [escChar, if_neg h1, if_neg h2, if_neg h3, if_neg h4, if_neg h5, if_neg h6,
        if_neg h7, if_neg h8, if_pos h9]
    exact Nat.succ_pos _
  by_cases h10 : c = '\u2028'
  · subst h10; decide
  by_cases h11 : c = '\u2029'
  · subst h11; decide
  rw [escChar, if_neg h1, if_neg h2, if_neg h3, if_neg h4, if_neg h5, if_neg h6,
      if_neg h7, if_neg h8, if_neg h9, if_neg h10, if_neg h11]
  exact Nat.succ_pos _

/-- One escaped character at the head of a string body decodes back to that
character's code point. -/
theorem parseStrBody_escChar (c : Char) (g : Nat) (t : List Char) :
    parseStrBody (g + 1) (escChar c ++ t) = consCont c.toNat (parseStrBody g t) := by
  by_cases h1 : c = '"'
  · subst h1; rfl
  by_cases h2 : c = '\\'
  · subst h2; rfl
  by_cases h3 : c = '\n'
  · subst h3; rfl
  by_cases h4 : c = '\r'
  · subst h4; rfl
  by_cases h5 : c = '\t'
  · subst h5; rfl
  by_cases h6 : c = '<'
  · subst h6; rfl
  by_cases h7 : c = '>'
  · subst h7; rfl
  by_cases h8 : c = '&'
  · subst h8; rfl
  by_cases h9 : c.toNat < 32
  · have hx : hex4? '0' '0' (hexDigitChar (c.toNat / 16))
        (hexDigitChar (c.toNat % 16)) = some c.toNat := by
      unfold hex4?
      rw [hexVal_hexDigitChar (c.toNat / 16) (by omega),
          hexVal_hexDigitChar (c.toNat % 16) (by omega),
          show hexVal? '0' = some 0 from rfl]
      exact congrArg some (by omega)
    rw [escChar, if_neg h1, if_neg h2, if_neg h3, if_neg h4, if_neg h5, if_neg h6,
        if_neg h7, if_neg h8, if_pos h9]
    simp only [List.cons_append, List.nil_append]
    exact parseStrBody_u_step g _ _ _ t hx
  by_cases h10 : c = '\u2028'
  · subst h10; rfl
  by_cases h11 : c = '\u2029'
  · subst h11; rfl
  rw [escChar, if_neg h1, if_neg h2, if_neg h3, if_neg h4, if_neg h5, if_neg h6,
      if_neg h7, if_neg h8, if_neg h9, if_neg h10, if_neg h11]
  simp only [List.cons_append, List.nil_append]
  rw [show parseStrBody (g + 1) (c :: t) =
        (if c = '"' then some ([], t)
         else if c = '\\' then
           (match t with
            | '"' :: r2 => consCont 34 (parseStrBody g r2)
            | '\\' :: r2 => consCont 92 (parseStrBody g r2)
            | '/' :: r2 => consCont 47 (parseStrBody g r2)
            | 'b' :: r2 => consCont 8 (parseStrBody g r2)
            | 'f' :: r2 => consCont 12 (parseStrBody g r2)
            | 'n' :: r2 => consCont 10 (parseStrBody g r2)
            | 'r' :: r2 => consCont 13 (parseStrBody g r2)
            | 't' :: r2 => consCont 9 (parseStrBody g r2)
            | 'u' :: a :: b :: c2 :: d :: r2 =>
              (match hex4? a b c2 d with
               | none => none
               | some n => consCont n (parseStrBody g r2))
            | _ => none)
         else if c.toNat < 32 then none
         else consCont c.toNat (parseStrBody g t)) from rfl]
  rw [if_neg h1, if_neg h2, if_neg h9]

/-- Decoding a Go-escaped string body: with enough fuel, the decoder recovers
exactly the escaped characters' code points and the input past the closing
quote. -/
theorem parseStrBody_esc (cs : List Char) (rest : List Char) (f : Nat)
    (hf : (cs.flatMap escChar).length < f) :
    parseStrBody f (cs.flatMap escChar ++ '"' :: rest) =
      some (cs.map Char.toNat, rest) := by
  induction cs generalizing rest f with
  | nil =>
    cases f with
    | zero => omega
    | succ g =>
      simp only [List.flatMap_nil, List.nil_append]
      rfl
  | cons c cs ih =>
    rw [List.flatMap_cons, List.length_append] at hf
    have hpos := escChar_length_pos c
    cases f with
    | zero => omega
    | succ g =>
      rw [List.flatMap_cons, List.append_assoc, parseStrBody_escChar,
          ih rest g (by omega)]
      rfl

/-- Parsing a JSON value whose significant prefix is an encoded string
literal yields that string. -/
theorem parseJValue_str_of (f : Nat) (cs t : List Char) (s : String)
    (h : skipWs cs = '"' :: (s.data.flatMap escChar ++ '"' :: t)) :
    parseJValue (f + 1) cs = some (JValue.jstr s, t) := by
  rw [parseJValue, h]
  show (parseStrBody ((s.data.flatMap escChar ++ '"' :: t).length + 1)
          (s.data.flatMap escChar ++ '"' :: t)).map
        (fun p => (JValue.jstr ⟨combineSurrogates p.1⟩, p.2)) = _
  rw [parseStrBody_esc s.data t _ (by simp [List.length_append]; omega)]
  show some (JValue.jstr ⟨combineSurrogates (s.data.map Char.toNat)⟩, t) =
    some (JValue.jstr s, t)
  rw [combineSurrogates_map_toNat]

/-! ### Literal layout expansions (for stepping the parser over the
encoder's punctuation) -/

/-- Layout expansion. -/
theorem strChars_statOpen :
    strChars "\x7b\n      " = '{' :: '\n' :: ' ' :: ' ' :: ' ' :: ' ' :: ' ' :: ' ' :: [] := rfl

/-- Layout expansion. -/
theorem strChars_statSep :
    strChars ",\n      " = ',' :: '\n' :: ' ' :: ' ' :: ' ' :: ' ' :: ' ' :: ' ' :: [] := rfl

/-- Layout expansion. -/
theorem strChars_statClose :
    strChars "\n    \x7d" = '\n' :: ' ' :: ' ' :: ' ' :: ' ' :: '}' :: [] := rfl

/-- Layout expansion. -/
theorem strChars_arrEmpty : strChars "[]" = '[' :: ']' :: [] := rfl

/-- Layout expansion. -/
theorem strChars_arrOpen :
    strChars "[\n    " = '[' :: '\n' :: ' ' :: ' ' :: ' ' :: ' ' :: [] := rfl

/-- Layout expansion. -/
theorem strChars_arrSep :
    strChars ",\n    " = ',' :: '\n' :: ' ' :: ' ' :: ' ' :: ' ' :: [] := rfl

/-- Layout expansion. -/
theorem strChars_arrClose :
    strChars "\n  ]" = '\n' :: ' ' :: ' ' :: ']' :: [] := rfl

/-- Layout expansion. -/
theorem strChars_docOpen : strChars "\x7b\n  " = '{' :: '\n' :: ' ' :: ' ' :: [] := rfl

/-- Layout expansion. -/
theorem strChars_docSep : strChars ",\n  " = ',' :: '\n' :: ' ' :: ' ' :: [] := rfl

/-- Layout expansion. -/
theorem strChars_colon : strChars ": " = ':' :: ' ' :: [] := rfl

/-- Layout expansion. -/
theorem strChars_docClose : strChars "\n\x7d" = '\n' :: '}' :: [] := rfl

/-! ### Parser step lemmas -/

/-- Value entry for an object. -/
theorem parseJValue_obj (k : Nat) (cs R : List Char)
    (h : skipWs cs = '{' :: R) :
    parseJValue (k + 1) cs =
      (parseObjBody k R).map (fun p => (JValue.jobj p.1, p.2)) := by
  rw [parseJValue, h]
  rfl

/-- Value entry for an array. -/
theorem parseJValue_arr (k : Nat) (cs R : List Char)
    (h : skipWs cs = '[' :: R) :
    parseJValue (k + 1) cs =
      (parseArrBody k R).map (fun p => (JValue.jarr p.1, p.2)) := by
  rw [parseJValue, h]
  rfl

/-- Parsing one member whose value parse is known. -/
theorem parseMember_val (k : Nat) (cs Z Y : List Char) (key : String) (v : JValue)
    (h : skipWs cs = '"' :: (key.data.flatMap escChar ++ '"' :: ':' :: Z))
    (hv : parseJValue k Z = some (v, Y)) :
    parseMember (k + 1) cs = some ((key, v), Y) := by
  rw [parseMember, h]
  show (match parseStrBody ((key.data.flatMap escChar ++ '"' :: ':' :: Z).length + 1)
          (key.data.flatMap escChar ++ '"' :: ':' :: Z) with
        | none => none
        | some (k2, rest1) =>
          match skipWs rest1 with
          | ':' :: rest2 =>
            (parseJValue k rest2).map
              (fun p => ((⟨combineSurrogates k2⟩, p.1), p.2))
          | _ => none) = some ((key, v), Y)
  rw [parseStrBody_esc key.data _ _ (by simp [List.length_append]; omega)]
  show (parseJValue k Z).map
      (fun p => ((⟨combineSurrogates (key.data.map Char.toNat)⟩, p.1), p.2)) =
    some ((key, v), Y)
  rw [hv, combineSurrogates_map_toNat]
  rfl

/-- Parsing one `"key": "value"` member laid out with the canonical `": "`
separator. -/
theorem parseMember_str (k : Nat) (cs Y : List Char) (key v : String)
    (h : skipWs cs = '"' :: (key.data.flatMap escChar ++ '"' :: ':' :: ' ' ::
          '"' :: (v.data.flatMap escChar ++ '"' :: Y))) :
    parseMember (k + 2) cs = some ((key, JValue.jstr v), Y) :=
  parseMember_val (k + 1) cs
    (' ' :: '"' :: (v.data.flatMap escChar ++ '"' :: Y)) Y key (JValue.jstr v) h
    (parseJValue_str_of k _ Y v rfl)

/-- First member of a nonempty object. -/
theorem parseObjBody_first (k : Nat) (cs R Y : List Char) (key : String) (v : JValue)
    (h : skipWs cs = '"' :: R)
    (hm : parseMember k cs = some ((key, v), Y)) :
    parseObjBody (k + 1) cs =
      match parseObjRest k Y with
      | none => none
      | some (fs, rest2) => some ((key, v) :: fs, rest2) := by
  rw [parseObjBody, h]
  show (match parseMember k cs with
        | none => none
        | some (kv, rest) =>
          match parseObjRest k rest with
          | none => none
          | some (fs, rest2) => some (kv :: fs, rest2)) =
      (match parseObjRest k Y with
       | none => none
       | some (fs, rest2) => some ((key, v) :: fs, rest2))
  rw [hm]

/-- Further member of an object, after a comma. -/
theorem parseObjRest_member (k : Nat) (cs cs2 Y : List Char) (key : String) (v : JValue)
    (h : skipWs cs = ',' :: cs2)
    (hm : parseMember k cs2 = some ((key, v), Y)) :
    parseObjRest (k + 1) cs =
      match parseObjRest k Y with
      | none => none
      | some (fs, rest3) => some ((key, v) :: fs, rest3) := by
  rw [parseObjRest, h]
  show (match parseMember k cs2 with
        | none => none
        | some (kv, rest2) =>
          match parseObjRest k rest2 with
          | none => none
          | some (fs, rest3) => some (kv :: fs, rest3)) =
      (match parseObjRest k Y with
       | none => none
       | some (fs, rest2) => some ((key, v) :: fs, rest2))
  rw [hm]

/-- Closing brace of an object. -/
theorem parseObjRest_close (k : Nat) (cs t : List Char)
    (h : skipWs cs = '}' :: t) :
    parseObjRest (k + 1) cs = some ([], t) := by
  rw [parseObjRest, h]
  rfl

/-- An empty array. -/
theorem parseArrBody_empty (k : Nat) (cs t : List Char)
    (h : skipWs cs = ']' :: t) :
    parseArrBody (k + 1) cs = some ([], t) := by
  rw [parseArrBody, h]
  rfl

/-- First element of a nonempty array of objects. -/
theorem parseArrBody_first (k : Nat) (cs R Y : List Char) (v : JValue)
    (h : skipWs cs = '{' :: R)
    (hv : parseJValue k ('{' :: R) = some (v, Y)) :
    parseArrBody (k + 1) cs =
      match parseArrRest k Y with
      | none => none
      | some (vs, rest2) => some (v :: vs, rest2) := by
  rw [parseArrBody, h]
  show (match parseJValue k ('{' :: R) with
        | none => none
        | some (v2, rest) =>
          match parseArrRest k rest with
          | none => none
          | some (vs, rest2) => some (v2 :: vs, rest2)) =
      (match parseArrRest k Y with
       | none => none
       | some (vs, rest2) => some (v :: vs, rest2))
  rw [hv]

/-- Closing bracket of an array. -/
theorem parseArrRest_close (k : Nat) (cs t : List Char)
    (h : skipWs cs = ']' :: t) :
    parseArrRest (k + 1) cs = some ([], t) := by
  rw [parseArrRest, h]
  rfl

/-- Further element of an array, after a comma. -/
theorem parseArrRest_next (k : Nat) (cs cs2 Y : List Char) (v : JValue)
    (h : skipWs cs = ',' :: cs2)
    (hv : parseJValue k cs2 = some (v, Y)) :
    parseArrRest (k + 1) cs =
      match parseArrRest k Y with
      | none => none
      | some (vs, rest2) => some (v :: vs, rest2) := by
  rw [parseArrRest, h]
  show (match parseJValue k cs2 with
        | none => none
        | some (v2, rest1) =>
          match parseArrRest k rest1 with
          | none => none
          | some (vs, rest2) => some (v2 :: vs, rest2)) =
      (match parseArrRest k Y with
       | none => none
       | some (vs, rest2) => some (v :: vs, rest2))
  rw [hv]

set_option maxHeartbeats 1600000 in
theorem parseJValue_encStat (f : Nat) (cs t : List Char) (st : VPNStat)
    (h : skipWs cs = encStatChars st ++ t) :
    parseJValue (f + 20) cs = some (statJ st, t) := by
  simp only [encStatChars, encFieldChars, encStringChars, strChars_statOpen,
             strChars_statSep, strChars_statClose, strChars_colon,
             List.cons_append, List.nil_append, List.append_assoc] at h
  rw [parseJValue_obj (f + 19) cs _ h]
  rw [parseObjBody_first (f + 18) _ _ _ "LocationName" (JValue.jstr st.LocationName)
        (by rfl) (parseMember_str (f + 16) _ _ _ _ (by rfl))]
  rw [parseObjRest_member (f + 17) _ _ _ "TimeToConnect" (JValue.jstr st.TimeToConnect)
        (by rfl) (parseMember_str (f + 15) _ _ _ _ (by rfl))]
  rw [parseObjRest_member (f + 16) _ _ _ "VPNDownloadSpeed" (JValue.jstr st.VPNDownloadSpeed)
        (by rfl) (parseMember_str (f + 14) _ _ _ _ (by rfl))]
  rw [parseObjRest_member (f + 15) _ _ _ "VPNUploadSpeed" (JValue.jstr st.VPNUploadSpeed)
        (by rfl) (parseMember_str (f + 13) _ _ _ _ (by rfl))]
  rw [parseObjRest_member (f + 14) _ _ _ "VPNLatency" (JValue.jstr st.VPNLatency)
        (by rfl) (parseMember_str (f + 12) _ _ _ _ (by rfl))]
  rw [parseObjRest_member (f + 13) _ _ _ "Server" (JValue.jstr st.Server)
        (by rfl) (parseMember_str (f + 11) _ _ _ _ (by rfl))]
  rw [parseObjRest_member (f + 12) _ _ _ "Date/Time" (JValue.jstr st.Timestamp)
        (by rfl) (parseMember_str (f + 10) _ _ _ _ (by rfl))]
  rw [parseObjRest_member (f + 11) _ _ _ "Mode" (JValue.jstr st.Mode)
        (by rfl) (parseMember_str (f + 9) _ _ _ _ (by rfl))]
  rw [parseObjRest_close (f + 10) _ t (by rfl)]
  rfl

set_option maxHeartbeats 1600000 in
theorem parseArrRest_encStatsTail (xs : List VPNStat) (f : Nat) (t : List Char) :
    parseArrRest (f + 22 * xs.length + 1)
        (encStatsTail xs ++ '\n' :: ' ' :: ' ' :: ']' :: t) =
      some (xs.map statJ, t) := by
  induction xs generalizing f with
  | nil =>
    rw [show encStatsTail [] ++ '\n' :: ' ' :: ' ' :: ']' :: t =
          '\n' :: ' ' :: ' ' :: ']' :: t from rfl]
    exact parseArrRest_close f _ t (by rfl)
  | cons x xs ih =>
    simp only [encStatsTail, strChars_arrSep, List.cons_append, List.nil_append,
               List.append_assoc]
    have e1 : f + 22 * (x :: xs).length + 1 = (f + 22 * xs.length + 22) + 1 := by
      simp [List.length_cons]; ring
    rw [e1]
    rw [parseArrRest_next (f + 22 * xs.length + 22) _ _ _ (statJ x) (by rfl)
          (parseJValue_encStat (f + 22 * xs.length + 2) _ _ x (by rfl))]
    have e2 : f + 22 * xs.length + 22 = (f + 21) + 22 * xs.length + 1 := by ring
    rw [e2, ih (f + 21)]
    rfl

set_option maxHeartbeats 1600000 in
theorem parseJValue_encStatsArr (F f : Nat) (cs t : List Char) (l : List VPNStat)
    (hF : F = f + 22 * l.length + 24)
    (h : skipWs cs = encStatsArr l ++ t) :
    parseJValue F cs = some (JValue.jarr (l.map statJ), t) := by
  subst hF
  cases l with
  | nil =>
    simp only [encStatsArr, strChars_arrEmpty, List.cons_append, List.nil_append] at h
    have e : f + 22 * ([] : List VPNStat).length + 24 = (f + 23) + 1 := by
      simp
    rw [e, parseJValue_arr (f + 23) cs _ h,
        parseArrBody_empty (f + 22) _ t (by rfl)]
    rfl
  | cons x xs =>
    simp only [encStatsArr, strChars_arrOpen, strChars_arrClose, List.cons_append,
               List.nil_append, List.append_assoc] at h
    have e : f + 22 * (x :: xs).length + 24 = (f + 22 * xs.length + 45) + 1 := by
      simp [List.length_cons]; ring
    rw [e, parseJValue_arr (f + 22 * xs.length + 45) cs _ h]
    rw [parseArrBody_first (f + 22 * xs.length + 44) _ _ _ (statJ x) (by rfl)
          (parseJValue_encStat (f + 22 * xs.length + 24) _ _ x (by rfl))]
    have e2 : f + 22 * xs.length + 44 = (f + 43) + 22 * xs.length + 1 := by ring
    rw [e2, parseArrRest_encStatsTail xs (f + 43) t]
    rfl

/-- Whitespace step for `skipWs`. -/
theorem skipWs_space (X : List Char) : skipWs (' ' :: X) = skipWs X := by
  rw [skipWs]
  simp

/-- The encoded stats array never starts with whitespace. -/
theorem skipWs_encStatsArr (l : List VPNStat) (t : List Char) :
    skipWs (encStatsArr l ++ t) = encStatsArr l ++ t := by
  cases l with
  | nil => rfl
  | cons x xs => rfl

set_option maxHeartbeats 3200000 in
theorem parseJValue_marshal (f : Nat) (d : Results) :
    parseJValue (f + 22 * d.VPNStats.length + 40) (marshalResults d).data =
      some (docJ d, []) := by
  have hdata : (marshalResults d).data =
      strChars "\x7b\n  " ++ encFieldChars "MachineName" d.MachineName ++
      strChars ",\n  " ++ encFieldChars "OS" d.OS ++
      strChars ",\n  " ++ encFieldChars "WithoutVPN" d.WithoutVPN ++
      strChars ",\n  " ++ encStringChars "VPNStats" ++ strChars ": " ++
      encStatsArr d.VPNStats ++ strChars "\n\x7d" := rfl
  rw [hdata]
  simp only [encFieldChars, encStringChars, strChars_docOpen, strChars_docSep,
             strChars_docClose, strChars_colon, List.cons_append, List.nil_append,
             List.append_assoc]
  have e : f + 22 * d.VPNStats.length + 40 = (f + 22 * d.VPNStats.length + 39) + 1 := by
    ring
  rw [e, parseJValue_obj (f + 22 * d.VPNStats.length + 39) _ _ (by rfl)]
  rw [parseObjBody_first (f + 22 * d.VPNStats.length + 38) _ _ _ "MachineName"
        (JValue.jstr d.MachineName) (by rfl)
        (parseMember_str (f + 22 * d.VPNStats.length + 36) _ _ _ _ (by rfl))]
  rw [parseObjRest_member (f + 22 * d.VPNStats.length + 37) _ _ _ "OS"
        (JValue.jstr d.OS) (by rfl)
        (parseMember_str (f + 22 * d.VPNStats.length + 35) _ _ _ _ (by rfl))]
  rw [parseObjRest_member (f + 22 * d.VPNStats.length + 36) _ _ _ "WithoutVPN"
        (JValue.jstr d.WithoutVPN) (by rfl)
        (parseMember_str (f + 22 * d.VPNStats.length + 34) _ _ _ _ (by rfl))]
  rw [parseObjRest_member (f + 22 * d.VPNStats.length + 35) _ _ _ "VPNStats"
        (JValue.jarr (d.VPNStats.map statJ)) (by rfl)
        (parseMember_val (f + 22 * d.VPNStats.length + 34) _ _ _ _
          (JValue.jarr (d.VPNStats.map statJ)) (by rfl)
          (parseJValue_encStatsArr (f + 22 * d.VPNStats.length + 34) (f + 10) _ _
            d.VPNStats (by ring) (by rw [skipWs_space, skipWs_encStatsArr])))]
  rw [parseObjRest_close (f + 22 * d.VPNStats.length + 34) _ _ (by rfl)]
  rfl

/-- Decoding the encoder's JSON form of one stat recovers the stat. -/
theorem decodeVPNStat_statJ (st : VPNStat) :
    decodeVPNStat (statJ st) emptyVPNStat = some st := rfl

/-- Decoding the encoder's JSON form of a stats list recovers the list. -/
theorem decodeStats_map (l : List VPNStat) :
    (l.map statJ).mapM (fun e => decodeVPNStat e emptyVPNStat) = some l := by
  induction l with
  | nil => rfl
  | cons x xs ih =>
    rw [List.map_cons, List.mapM_cons, decodeVPNStat_statJ, ih]
    rfl

/-- Decoding the encoder's JSON form of the stats array recovers the list. -/
theorem decodeStatsInto_arr (l cur : List VPNStat) :
    decodeStatsInto (JValue.jarr (l.map statJ)) cur = some l := by
  rw [decodeStatsInto]
  exact decodeStats_map l

/-- Decoding the encoder's JSON form of a document recovers the document. -/
theorem decodeResults_docJ (d : Results) : decodeResults (docJ d) = some d := by
  show ((decodeStatsInto (JValue.jarr (d.VPNStats.map statJ)) []).map
      (fun l => { MachineName := d.MachineName, OS := d.OS,
                  WithoutVPN := d.WithoutVPN, VPNStats := l })) >>= pure = some d
  rw [decodeStatsInto_arr]
  rfl

set_option maxRecDepth 4000 in
/-- Lower bound on one encoded stat's length. -/
theorem encStatChars_length (st : VPNStat) : 30 ≤ (encStatChars st).length := by
  simp [encStatChars, encFieldChars, encStringChars, strChars,
        List.length_append]
  omega

/-- Lower bound on the encoded stats tail's length. -/
theorem encStatsTail_length (xs : List VPNStat) :
    22 * xs.length ≤ (encStatsTail xs).length := by
  induction xs with
  | nil => simp [encStatsTail]
  | cons x xs ih =>
    have := encStatChars_length x
    simp only [encStatsTail, List.length_append, List.length_cons]
    simp [strChars]
    omega

/-- Lower bound on the encoded stats array's length. -/
theorem encStatsArr_length (l : List VPNStat) :
    22 * l.length + 2 ≤ (encStatsArr l).length := by
  cases l with
  | nil => simp [encStatsArr, strChars]
  | cons x xs =>
    have h1 := encStatChars_length x
    have h2 := encStatsTail_length xs
    simp only [encStatsArr, List.length_append, List.length_cons]
    simp [strChars]
    omega

/-- The fuel passed by `parseResultsDoc` always covers `parseJValue_marshal`. -/
theorem marshal_length (d : Results) :
    22 * d.VPNStats.length + 40 ≤ (marshalResults d).data.length + 1 := by
  have h := encStatsArr_length d.VPNStats
  simp only [marshalResults, encFieldChars, encStringChars, strChars,
             List.length_append, List.length_cons]
  simp
  omega

/-- Round trip of `marshalResults` through the whole-document parser. -/
theorem parseResultsDoc_marshal (d : Results) :
    parseResultsDoc (marshalResults d) = some d := by
  have e : (marshalResults d).data.length + 1 =
      ((marshalResults d).data.length + 1 - (22 * d.VPNStats.length + 40)) +
        22 * d.VPNStats.length + 40 := by
    have := marshal_length d
    omega
  simp only [parseResultsDoc]
  rw [e, parseJValue_marshal
        ((marshalResults d).data.length + 1 - (22 * d.VPNStats.length + 40)) d]
  show (if skipWs [] = [] then decodeResults (docJ d) else none) = some d
  simp [skipWs, decodeResults_docJ]

/-- `loadFromFile` inverts `saveToFile`: the on-disk JSON round-trips. -/
theorem loadFromFile_marshal (d : Results) :
    loadFromFile (some (marshalResults d)) = Except.ok d := by
  simp [loadFromFile, parseResultsDoc_marshal]

/-! ## Behavioural helper lemmas -/

/-- Characterization of the shared averaging loop. -/
theorem aggStep_foldl (stats : List VPNStat) (a b : Int) (n : Nat) (x : VPNStat) :
    stats.foldl aggStep (a, b, n, x) =
      (a + (stats.map (fun s => atoi (trimSuffix s.VPNDownloadSpeed "Mbps"))).sum,
       b + (stats.map (fun s => atoi (trimSuffix s.VPNUploadSpeed "Mbps"))).sum,
       n + stats.length, stats.getLastD x) := by
  induction stats generalizing a b n x with
  | nil => simp
  | cons s rest ih =>
    simp only [List.foldl_cons, aggStep, List.map_cons, List.sum_cons,
               List.length_cons, List.getLastD_cons]
    rw [ih]
    simp only [Prod.mk.injEq]
    refine ⟨by ring, by ring, by omega, trivial⟩

/-- Last element via `getLastD`. -/
theorem getLastD_eq_getLast (stats : List VPNStat) (h : stats ≠ []) (x : VPNStat) :
    stats.getLastD x = stats.getLast h := by
  rw [List.getLastD_eq_getLast?, List.getLast?_eq_getLast stats h]
  rfl

/-- A nonempty string appended on the right keeps a string nonempty. -/
theorem str_append_ne (s t : String) (ht : t ≠ "") : s ++ t ≠ "" := by
  intro he
  have hd : s.data ++ t.data = [] := congrArg String.data he
  rcases List.append_eq_nil.mp hd with ⟨_, h2⟩
  exact ht (String.ext h2)

/-- A string whose character list is nonempty is nonempty. -/
theorem str_ne_of_data (t : String) (h : t.data ≠ []) : t ≠ "" := by
  intro he
  exact h (congrArg String.data he)

/-- The rendering of a duration is never the empty string, so a VPN batch's
`connectionTime` tag is always nonempty. -/
theorem durationString_ne_empty (d : Nat) : durationString d ≠ "" := by
  simp only [durationString]
  split_ifs
  · exact str_ne_of_data _ (by decide)
  · exact str_append_ne _ "ns" (str_ne_of_data _ (by decide))
  · exact str_append_ne _ "µs" (str_ne_of_data _ (by decide))
  · exact str_append_ne _ "ms" (str_ne_of_data _ (by decide))
  · exact str_append_ne _ "s" (str_ne_of_data _ (by decide))
  · exact str_append_ne _ _ (str_append_ne _ "s" (str_ne_of_data _ (by decide)))
  · exact str_append_ne _ _ (str_append_ne _ "s" (str_ne_of_data _ (by decide)))

/-- The rounded connect duration is a whole number of milliseconds. -/
theorem roundMillis_dvd (d : Nat) : 1000000 ∣ roundMillis d := by
  simp only [roundMillis]
  have h := Nat.div_add_mod d 1000000
  by_cases hc : d % 1000000 + d % 1000000 < 1000000
  · rw [if_pos hc]
    exact ⟨d / 1000000, by omega⟩
  · rw [if_neg hc]
    exact ⟨d / 1000000 + 1, by omega⟩

/-- The stat `speedTest` hands to the store, expressed through the loop's
outcome. -/
theorem speedTestStat_snd (ct b : String)
    (outs : List (Option (SpeedTestResult × String))) :
    (speedTestStat ct b outs).2 =
      match (seriesLoop ct b outs).2 with
      | none => none
      | some stats => aggregate stats := by
  rw [speedTestStat]
  rcases hsl : seriesLoop ct b outs with ⟨b2, so⟩
  cases so <;> rfl

/-- A series batch containing a failed invocation aborts. -/
theorem seriesLoop_abort (ct b : String)
    (pre post : List (Option (SpeedTestResult × String))) :
    (seriesLoop ct b (pre ++ none :: post)).2 = none := by
  induction pre generalizing b with
  | nil => rfl
  | cons o pre ih =>
    cases o with
    | none => rfl
    | some p =>
      obtain ⟨r, ts⟩ := p
      rw [List.cons_append, seriesLoop]
      by_cases hct : ct = ""
      · rw [if_pos hct]
        exact ih (baselineString r)
      · rw [if_neg hct]
        have h2 := ih b
        rcases hsl : seriesLoop ct b (pre ++ none :: post) with ⟨b2, so⟩
        rw [hsl] at h2
        cases so with
        | none => rfl
        | some stats => exact Option.noConfusion h2

/-- A baseline series batch collects no stats. -/
theorem seriesLoop_baseline (b : String)
    (outs : List (Option (SpeedTestResult × String))) :
    (seriesLoop "" b outs).2 = none ∨ (seriesLoop "" b outs).2 = some [] := by
  induction outs generalizing b with
  | nil => exact Or.inr rfl
  | cons o rest ih =>
    cases o with
    | none => exact Or.inl rfl
    | some p =>
      obtain ⟨r, ts⟩ := p
      rw [seriesLoop, if_pos rfl]
      exact ih (baselineString r)

/-- A VPN series batch leaves the baseline variable untouched. -/
theorem seriesLoop_fst (ct b : String) (hct : ct ≠ "")
    (outs : List (Option (SpeedTestResult × String))) :
    (seriesLoop ct b outs).1 = b := by
  induction outs generalizing b with
  | nil => rfl
  | cons o rest ih =>
    cases o with
    | none => rfl
    | some p =>
      obtain ⟨r, ts⟩ := p
      rw [seriesLoop, if_neg hct]
      have h := ih b
      rcases hsl : seriesLoop ct b rest with ⟨b2, so⟩
      rw [hsl] at h
      cases so <;> exact h

/-- A baseline batch never yields a stat (in either mode). -/
theorem batchStat_baseline_none (sm : Bool) (b : String)
    (outs : List (Option (SpeedTestResult × String))) :
    (batchStat sm "" b outs).2 = none := by
  cases sm with
  | true =>
    rw [batchStat, if_pos rfl, speedTestStat_snd]
    rcases seriesLoop_baseline b outs with h | h <;> rw [h] <;> rfl
  | false =>
    rw [batchStat, if_neg (by decide)]
    show aggregate (parallelCollect "" outs) = none
    rw [parallelCollect, if_pos rfl]
    rfl

/-- A VPN batch leaves the baseline variable untouched (in either mode). -/
theorem batchStat_fst (sm : Bool) (ct b : String) (hct : ct ≠ "")
    (outs : List (Option (SpeedTestResult × String))) :
    (batchStat sm ct b outs).1 = b := by
  cases sm with
  | true =>
    rw [batchStat, if_pos rfl, speedTestStat]
    have h := seriesLoop_fst ct b hct outs
    rcases hsl : seriesLoop ct b outs with ⟨b2, so⟩
    rw [hsl] at h
    cases so <;> exact h
  | false =>
    rw [batchStat, if_neg (by decide)]
    show parallelBaseline ct b outs = b
    rw [parallelBaseline, if_neg hct]

/-- `writeToFile` on a document with a machine name appends the stat. -/
theorem writeToFile_append (menv : MachineEnv) (b : String) (st : VPNStat)
    (fs : Option String) (data : Results)
    (hload : loadFromFile fs = Except.ok data) (hmn : data.MachineName ≠ "") :
    writeToFile menv b st fs =
      some (marshalResults { data with VPNStats := data.VPNStats ++ [st] }) := by
  simp only [writeToFile, hload, if_neg hmn]
  rfl

/-- `writeToFile` on a document without a machine name starts a fresh
document when the hostname is available. -/
theorem writeToFile_fresh (menv : MachineEnv) (b : String) (st : VPNStat)
    (fs : Option String) (data : Results) (hn : String)
    (hload : loadFromFile fs = Except.ok data) (hmn : data.MachineName = "")
    (hh : menv.hostname = some hn) :
    writeToFile menv b st fs =
      some (marshalResults
        { MachineName := hn, OS := menv.goos ++ ": " ++ menv.osVersion,
          WithoutVPN := b, VPNStats := [st] }) := by
  simp only [writeToFile, hload, if_pos hmn, hh]
  rfl

/-- `writeToFile` aborts without touching the file when the hostname lookup
fails on a fresh document. -/
theorem writeToFile_nohost (menv : MachineEnv) (b : String) (st : VPNStat)
    (fs : Option String) (data : Results)
    (hload : loadFromFile fs = Except.ok data) (hmn : data.MachineName = "")
    (hh : menv.hostname = none) :
    writeToFile menv b st fs = fs := by
  simp only [writeToFile, hload, if_pos hmn, hh]

/-- `writeToFile` preserves the invariant that the file, when present, is a
marshalled document whose `WithoutVPN` field is the baseline in force. -/
theorem writeToFile_withoutVPN (menv : MachineEnv) (b : String) (st : VPNStat)
    (fs : Option String)
    (hfs : fs = none ∨ ∃ d, fs = some (marshalResults d) ∧ d.WithoutVPN = b) :
    writeToFile menv b st fs = none ∨
      ∃ d, writeToFile menv b st fs = some (marshalResults d) ∧
        d.WithoutVPN = b := by
  rcases hfs with rfl | ⟨d, rfl, hw⟩
  · cases hh : menv.hostname with
    | none => exact Or.inl (writeToFile_nohost menv b st none emptyResults rfl rfl hh)
    | some hn =>
      exact Or.inr ⟨_, writeToFile_fresh menv b st none emptyResults hn rfl rfl hh, rfl⟩
  · by_cases hmn : d.MachineName = ""
    · cases hh : menv.hostname with
      | none =>
        refine Or.inr ⟨d, ?_, hw⟩
        rw [writeToFile_nohost menv b st _ d (loadFromFile_marshal d) hmn hh]
      | some hn =>
        exact Or.inr ⟨_, writeToFile_fresh menv b st _ d hn (loadFromFile_marshal d) hmn hh, rfl⟩
    · exact Or.inr ⟨_, writeToFile_append menv b st _ d (loadFromFile_marshal d) hmn, hw⟩

/-- Iterated writes with a fixed machine identity and baseline keep producing
marshalled documents carrying that identity and baseline. -/
theorem writesFold_identity (menv : MachineEnv) (b hn : String)
    (hh : menv.hostname = some hn) (stats : List VPNStat) (d : Results)
    (hd : d.MachineName = hn ∧ d.OS = menv.goos ++ ": " ++ menv.osVersion ∧
          d.WithoutVPN = b) :
    ∃ d2, writesFold menv b stats (some (marshalResults d)) =
        some (marshalResults d2) ∧ d2.MachineName = hn ∧
        d2.OS = menv.goos ++ ": " ++ menv.osVersion ∧ d2.WithoutVPN = b := by
  induction stats generalizing d with
  | nil => exact ⟨d, rfl, hd⟩
  | cons st rest ih =>
    simp only [writesFold, List.foldl_cons]
    by_cases hmn : d.MachineName = ""
    · rw [writeToFile_fresh menv b st (some (marshalResults d)) d hn
        (loadFromFile_marshal d) hmn hh]
      exact ih _ ⟨rfl, rfl, rfl⟩
    · rw [writeToFile_append menv b st (some (marshalResults d)) d
        (loadFromFile_marshal d) hmn]
      exact ih _ ⟨hd.1, hd.2.1, hd.2.2⟩

/-- The driver loop keeps the baseline variable fixed and preserves the
marshalled-document / baseline invariant of the results file. -/
theorem runLocs_inv (menv : MachineEnv) (sm : Bool) (b0 : String)
    (fs : Option String) (locs : List (Location × LocEnv))
    (hfs : fs = none ∨ ∃ d, fs = some (marshalResults d) ∧ d.WithoutVPN = b0) :
    (runLocs menv sm b0 fs locs).1.1 = b0 ∧
      ((runLocs menv sm b0 fs locs).1.2 = none ∨
        ∃ d, (runLocs menv sm b0 fs locs).1.2 = some (marshalResults d) ∧
          d.WithoutVPN = b0) := by
  induction locs generalizing fs with
  | nil => exact ⟨rfl, hfs⟩
  | cons p rest ih =>
    obtain ⟨loc, lenv⟩ := p
    simp only [runLocs]
    by_cases hr : findRegion loc lenv.regions = ""
    · rw [if_pos hr]
      exact ih fs hfs
    · rw [if_neg hr]
      rcases hc : connectToVPN lenv.connectExitOk lenv.polls lenv.elapsedNs with ⟨o, n⟩
      cases o with
      | none => exact ⟨rfl, hfs⟩
      | some exc =>
        cases exc with
        | error u => exact ih fs hfs
        | ok d =>
          dsimp only
          have hbs := batchStat_fst sm (durationString d) b0
            (durationString_ne_empty d) lenv.outcomes
          rw [hbs]
          rcases hb2 : (batchStat sm (durationString d) b0 lenv.outcomes).2 with _ | stat
          · exact ih fs hfs
          · exact ih _ (writeToFile_withoutVPN menv b0 stat fs hfs)

/-- If no location event persisted a stat, the driver loop leaves the results
file exactly as it found it. -/
theorem runLocs_no_persist (menv : MachineEnv) (sm : Bool) (b : String)
    (fs : Option String) (locs : List (Location × LocEnv))
    (h : ∀ ev ∈ (runLocs menv sm b fs locs).2.1, persistedOf ev = none) :
    (runLocs menv sm b fs locs).1.2 = fs := by
  induction locs generalizing b fs with
  | nil => rfl
  | cons p rest ih =>
    obtain ⟨loc, lenv⟩ := p
    simp only [runLocs] at h ⊢
    by_cases hr : findRegion loc lenv.regions = ""
    · rw [if_pos hr] at h ⊢
      exact ih b fs (fun ev hev => h ev (List.mem_cons_of_mem _ hev))
    · rw [if_neg hr] at h ⊢
      rcases hc : connectToVPN lenv.connectExitOk lenv.polls lenv.elapsedNs with ⟨o, n⟩
      rw [hc] at h
      cases o with
      | none => rfl
      | some exc =>
        cases exc with
        | error u => exact ih b fs (fun ev hev => h ev (List.mem_cons_of_mem _ hev))
        | ok d =>
          dsimp only at h ⊢
          have hstat : (batchStat sm (durationString d) b lenv.outcomes).2 = none :=
            h (LocEvent.completed (batchStat sm (durationString d) b lenv.outcomes).2)
              (List.mem_cons_self _ _)
          rw [hstat] at h ⊢
          exact ih _ fs (fun ev hev => h ev (List.mem_cons_of_mem _ hev))

/-- The region scan returns the first list entry equal to either candidate
token (for a matching entry the returned candidate string and the entry
coincide). -/
theorem findRegionLoop_eq_find (fl co : String) (l : List String) :
    findRegionLoop fl co l = (l.find? (fun e => e = fl || e = co)).getD "" := by
  induction l with
  | nil => rfl
  | cons loc rest ih =>
    rw [findRegionLoop]
    by_cases h1 : loc = fl
    · subst h1
      simp [List.find?_cons]
    · rw [if_neg h1]
      by_cases h2 : loc = co
      · subst h2
        simp [List.find?_cons, h1]
      · simp [List.find?_cons, h1, h2, ih]

/-! ## Claims -/

/-- C1 counterexample: with both candidate tokens present in the available
list, `findRegion` returns whichever entry comes first in the list ("romania"
here), not the preferred country+city form "romania-bucharest" the
specification promises. -/
theorem findRegion_candidate_preference_cex :
    findRegion ⟨"Romania", "Bucharest"⟩ (some ["romania", "romania-bucharest"]) =
      "romania" ∧
    findRegionSpec ⟨"Romania", "Bucharest"⟩ (some ["romania", "romania-bucharest"]) =
      "romania-bucharest" ∧
    findRegion ⟨"Romania", "Bucharest"⟩ (some ["romania", "romania-bucharest"]) ≠
      findRegionSpec ⟨"Romania", "Bucharest"⟩ (some ["romania", "romania-bucharest"]) := by
  refine ⟨by decide, by decide, by decide⟩

/-- C1 (amended): `findRegion` returns the first entry of the available-region
list that equals either candidate token — lower(country)+"-"+lower(city) is
tried first on each entry, but preference between the two candidate forms is
decided by list position, not by candidate form — and returns the empty token
when no entry matches or when the region query itself failed. -/
theorem findRegion_first_listed_match (location : Location)
    (regions : Option (List String)) :
    findRegion location regions =
      match regions with
      | none => ""
      | some l =>
        (l.find? (fun e =>
            e = strLower location.country ++ "-" ++ strLower location.city ||
            e = strLower location.country)).getD "" := by
  cases regions with
  | none => rfl
  | some l => exact findRegionLoop_eq_find _ _ l

/-- C2: starting from no results file, any nonempty run of appends with a
fixed machine environment and baseline produces a marshalled document whose
machine-identity fields (MachineName, OS, WithoutVPN) carry exactly the
values populated by the first successful write; no later append changes
them. -/
theorem writes_populate_identity_once (menv : MachineEnv) (b hn : String)
    (stats : List VPNStat) (hh : menv.hostname = some hn) (hne : stats ≠ []) :
    ∃ d : Results, writesFold menv b stats none = some (marshalResults d) ∧
      d.MachineName = hn ∧ d.OS = menv.goos ++ ": " ++ menv.osVersion ∧
      d.WithoutVPN = b := by
  obtain ⟨st, rest, rfl⟩ := List.exists_cons_of_ne_nil hne
  simp only [writesFold, List.foldl_cons]
  rw [writeToFile_fresh menv b st none emptyResults hn rfl rfl hh]
  exact writesFold_identity menv b hn hh rest _ ⟨rfl, rfl, rfl⟩

/-- Witness for C2: one append on a fresh file populates the identity
fields. -/
theorem writes_populate_identity_once_witness :
    ∃ d : Results,
      writesFold ⟨some "host", "linux", "ubuntu"⟩ "42Mbps" [emptyVPNStat] none =
        some (marshalResults d) ∧
      d.MachineName = "host" ∧ d.OS = "linux" ++ ": " ++ "ubuntu" ∧
      d.WithoutVPN = "42Mbps" :=
  writes_populate_identity_once ⟨some "host", "linux", "ubuntu"⟩ "42Mbps" "host"
    [emptyVPNStat] rfl (by decide)

/-- C3 counterexample: when the loaded document's MachineName is empty (as
happens when `os.Hostname()` legitimately returned the empty string on the
first write), a later `writeToFile` replaces the whole document: the
previously appended stat is dropped instead of the list being extended. -/
theorem writeToFile_discards_stats_cex :
    loadFromFile (some (marshalResults
        ⟨"", "linux: ubuntu", "42Mbps", [⟨"", "", "", "", "", "srv0", "", ""⟩]⟩)) =
      Except.ok ⟨"", "linux: ubuntu", "42Mbps", [⟨"", "", "", "", "", "srv0", "", ""⟩]⟩ ∧
    writeToFile ⟨some "", "linux", "ubuntu"⟩ "42Mbps" emptyVPNStat
        (some (marshalResults
          ⟨"", "linux: ubuntu", "42Mbps", [⟨"", "", "", "", "", "srv0", "", ""⟩]⟩)) =
      some (marshalResults ⟨"", "linux: ubuntu", "42Mbps", [emptyVPNStat]⟩) ∧
    ([emptyVPNStat] : List VPNStat) ≠
      [⟨"", "", "", "", "", "srv0", "", ""⟩] ++ [emptyVPNStat] := by
  refine ⟨loadFromFile_marshal _, ?_, by decide⟩
  rw [writeToFile_fresh ⟨some "", "linux", "ubuntu"⟩ "42Mbps" emptyVPNStat _
    ⟨"", "linux: ubuntu", "42Mbps", [⟨"", "", "", "", "", "srv0", "", ""⟩]⟩ ""
    (loadFromFile_marshal _) rfl rfl]
  rfl

/-- C3 (amended): `writeToFile` extends the loaded document's stats list by
exactly the new stat at the end, provided the loaded document already carries
a machine name, or carries no stats yet and the hostname lookup succeeds (the
remaining case — empty machine name with stats already present — replaces the
document and drops the stats, see the counterexample). -/
theorem writeToFile_appends_exactly (menv : MachineEnv) (b : String)
    (st : VPNStat) (fs : Option String) (data : Results)
    (hload : loadFromFile fs = Except.ok data)
    (hcond : data.MachineName ≠ "" ∨ (data.VPNStats = [] ∧ menv.hostname ≠ none)) :
    ∃ d2 : Results, writeToFile menv b st fs = some (marshalResults d2) ∧
      d2.VPNStats = data.VPNStats ++ [st] := by
  rcases hcond with hmn | ⟨hemp, hh⟩
  · exact ⟨_, writeToFile_append menv b st fs data hload hmn, rfl⟩
  · by_cases hmn : data.MachineName = ""
    · cases hhh : menv.hostname with
      | none => exact absurd hhh hh
      | some hn =>
        refine ⟨_, writeToFile_fresh menv b st fs data hn hload hmn hhh, ?_⟩
        rw [hemp]
        rfl
    · exact ⟨_, writeToFile_append menv b st fs data hload hmn, rfl⟩

/-- Witness for C3 (amended): appending to a document with a machine name
extends its stats list by the new stat. -/
theorem writeToFile_appends_exactly_witness :
    ∃ d2 : Results,
      writeToFile ⟨some "host", "linux", "ubuntu"⟩ "42Mbps" emptyVPNStat
          (some (marshalResults ⟨"m", "o", "w", []⟩)) =
        some (marshalResults d2) ∧
      d2.VPNStats = (⟨"m", "o", "w", []⟩ : Results).VPNStats ++ [emptyVPNStat] :=
  writeToFile_appends_exactly ⟨some "host", "linux", "ubuntu"⟩ "42Mbps"
    emptyVPNStat _ ⟨"m", "o", "w", []⟩ (loadFromFile_marshal _)
    (Or.inl (by decide))

/-- C4: aggregating a nonempty batch yields the arithmetic mean of the parsed
download and upload speeds, formatted to two decimals with an "Mbps" suffix,
while every descriptive field is copied from the last sample in iteration
order. -/
theorem aggregate_mean_of_nonempty (stats : List VPNStat) (h : stats ≠ []) :
    aggregate stats = some
      { stats.getLast h with
        VPNDownloadSpeed :=
          fmtF2 ((stats.map (fun s => atoi (trimSuffix s.VPNDownloadSpeed "Mbps"))).sum)
            stats.length ++ "Mbps",
        VPNUploadSpeed :=
          fmtF2 ((stats.map (fun s => atoi (trimSuffix s.VPNUploadSpeed "Mbps"))).sum)
            stats.length ++ "Mbps" } := by
  simp only [aggregate]
  rw [aggStep_foldl]
  dsimp only
  simp only [zero_add]
  rw [if_pos (List.length_pos.mpr h), getLastD_eq_getLast stats h]

/-- Witness for C4: samples of 100, 200, 300 Mbps average to exactly
"200.00Mbps" (and the descriptive fields come from the last sample). -/
theorem aggregate_mean_of_nonempty_witness :
    ([⟨"L1", "1s", "100Mbps", "10Mbps", "5.00ms", "s1", "t1", "m"⟩,
      ⟨"L2", "2s", "200Mbps", "20Mbps", "6.00ms", "s2", "t2", "m"⟩,
      ⟨"L3", "3s", "300Mbps", "30Mbps", "7.00ms", "s3", "t3", "m"⟩] :
        List VPNStat) ≠ [] ∧
    aggregate
      [⟨"L1", "1s", "100Mbps", "10Mbps", "5.00ms", "s1", "t1", "m"⟩,
       ⟨"L2", "2s", "200Mbps", "20Mbps", "6.00ms", "s2", "t2", "m"⟩,
       ⟨"L3", "3s", "300Mbps", "30Mbps", "7.00ms", "s3", "t3", "m"⟩] =
      some ⟨"L3", "3s", "200.00Mbps", "20.00Mbps", "7.00ms", "s3", "t3", "m"⟩ := by
  constructor
  · decide
  · rw [aggregate_mean_of_nonempty _ (by decide)]
    decide

/-- C5: a batch that collects zero samples never hands a stat to the store,
neither in series mode nor in parallel mode. -/
theorem empty_batch_no_stat (ct b : String)
    (outs : List (Option (SpeedTestResult × String))) :
    (seriesSamples ct b outs = [] → (speedTestStat ct b outs).2 = none) ∧
    (parallelCollect ct outs = [] → (parallelStat ct b outs).2 = none) := by
  constructor
  · intro hs
    rw [speedTestStat_snd]
    rcases hsl : (seriesLoop ct b outs).2 with _ | stats
    · rfl
    · simp only [seriesSamples, hsl] at hs
      subst hs
      rfl
  · intro hp
    show aggregate (parallelCollect ct outs) = none
    rw [hp]
    rfl

/-- Witness for C5: an empty outcome list collects no samples and persists
nothing, in both modes. -/
theorem empty_batch_no_stat_witness :
    seriesSamples "1s" "b" [] = [] ∧ (speedTestStat "1s" "b" []).2 = none ∧
    parallelCollect "1s" [] = [] ∧ (parallelStat "1s" "b" []).2 = none :=
  ⟨rfl, (empty_batch_no_stat "1s" "b" []).1 rfl, rfl,
   (empty_batch_no_stat "1s" "b" []).2 rfl⟩

/-- C6: a nonzero connect exit makes `connectToVPN` return an error at once,
with zero connection-state queries issued; the driver records the failure for
that location and continues with the rest, issuing no state-poll and no
disconnect command for it; on success the reported duration is the elapsed
time rounded to millisecond precision. -/
theorem connect_failure_short_circuits :
    (∀ (polls : List (Option String)) (elapsedNs : Nat),
      connectToVPN false polls elapsedNs = (some (Except.error ()), 0)) ∧
    (∀ (menv : MachineEnv) (sm : Bool) (b : String) (fs : Option String)
       (loc : Location) (lenv : LocEnv) (rest : List (Location × LocEnv)),
      findRegion loc lenv.regions ≠ "" → lenv.connectExitOk = false →
      runLocs menv sm b fs ((loc, lenv) :: rest) =
        ((runLocs menv sm b fs rest).1,
         LocEvent.connectFailed :: (runLocs menv sm b fs rest).2.1,
         VpnCmd.getRegions :: VpnCmd.connectCmd (findRegion loc lenv.regions) ::
           (runLocs menv sm b fs rest).2.2)) ∧
    (∀ (ok2 : Bool) (polls : List (Option String)) (elapsedNs d n : Nat),
      connectToVPN ok2 polls elapsedNs = (some (Except.ok d), n) →
      d = roundMillis elapsedNs ∧ 1000000 ∣ d) := by
  refine ⟨fun polls e => rfl, ?_, ?_⟩
  · intro menv sm b fs loc lenv rest h1 h2
    simp only [runLocs, h2]
    rw [if_neg h1, show connectToVPN false lenv.polls lenv.elapsedNs =
      (some (Except.error ()), 0) from rfl]
  · intro ok2 polls e d n h
    cases ok2 with
    | false =>
      rw [show connectToVPN false polls e = (some (Except.error ()), 0) from rfl] at h
      injection h with h1 h2
      injection h1 with h1
      exact Except.noConfusion h1
    | true =>
      rw [show connectToVPN true polls e =
        (match waitForConnection polls with
         | some queries => (some (Except.ok (roundMillis e)), queries)
         | none => (none, polls.length)) from rfl] at h
      rcases hw : waitForConnection polls with _ | q
      · rw [hw] at h
        dsimp only at h
        injection h with h1 h2
        exact Option.noConfusion h1
      · rw [hw] at h
        dsimp only at h
        injection h with h1 h2
        injection h1 with h1
        injection h1 with h1
        exact ⟨h1.symm, h1 ▸ roundMillis_dvd e⟩

/-- Witness for C6: the failure equations at a concrete location, and the
rounding property for a concrete successful connect. -/
theorem connect_failure_short_circuits_witness :
    connectToVPN false [some "Connected"] 5 = (some (Except.error ()), 0) ∧
    runLocs ⟨some "h", "linux", "ubuntu"⟩ true "b" none
        [(⟨"Romania", "Bucharest"⟩, ⟨some ["romania"], false, [], 0, []⟩)] =
      (("b", none), [LocEvent.connectFailed],
       [VpnCmd.getRegions, VpnCmd.connectCmd "romania"]) ∧
    (1000000 = roundMillis 1234567 ∧ 1000000 ∣ 1000000) := by
  refine ⟨connect_failure_short_circuits.1 [some "Connected"] 5, ?_, ?_⟩
  · rw [connect_failure_short_circuits.2.1 ⟨some "h", "linux", "ubuntu"⟩ true "b"
      none ⟨"Romania", "Bucharest"⟩ ⟨some ["romania"], false, [], 0, []⟩ []
      (by decide) rfl]
    rfl
  · exact connect_failure_short_circuits.2.2 true [some "Connected"] 1234567
      1000000 1 (by rfl)

/-- C7: loading a nonexistent results file yields the empty document without
an error; loading an existing file whose contents do not parse as the
expected JSON document yields an error. -/
theorem loadFromFile_missing_and_malformed :
    loadFromFile none = Except.ok emptyResults ∧
    ∀ contents : String, parseResultsDoc contents = none →
      loadFromFile (some contents) = Except.error () := by
  refine ⟨rfl, fun contents h => ?_⟩
  simp only [loadFromFile, h]

/-- Witness for C7: the truncated document "\x7b" fails to parse and loading
it errors. -/
theorem loadFromFile_missing_and_malformed_witness :
    loadFromFile none = Except.ok emptyResults ∧
    loadFromFile (some "\x7b") = Except.error () :=
  ⟨loadFromFile_missing_and_malformed.1,
   loadFromFile_missing_and_malformed.2 "\x7b" (by decide)⟩

/-- C8: saving a document and loading it back succeeds and returns a document
equal to the saved one in every field. -/
theorem saveToFile_loadFromFile_roundtrip (data : Results) :
    loadFromFile (some (saveToFile data)) = Except.ok data :=
  loadFromFile_marshal data

/-- C9: in series mode, one failed invocation anywhere in the batch makes
`speedTest` return before aggregation and persistence, so no stat is handed
to the store — samples collected by the earlier successful invocations of the
batch are discarded. -/
theorem series_failure_discards_batch (ct b : String)
    (pre post : List (Option (SpeedTestResult × String))) :
    (speedTestStat ct b (pre ++ none :: post)).2 = none := by
  rw [speedTestStat_snd, seriesLoop_abort]

/-- C10: a baseline batch (empty connection tag) never produces a stat for
the store; a run in which no location event persisted a stat creates no
results file at all; and whenever the run does leave a file, its contents are
a marshalled document whose WithoutVPN field is exactly the baseline measured
by the initial baseline batch — the only way the baseline reaches disk. -/
theorem baseline_never_persisted :
    (∀ (sm : Bool) (b : String) (outs : List (Option (SpeedTestResult × String))),
      (batchStat sm "" b outs).2 = none) ∧
    (∀ env : RunEnv,
      (∀ ev ∈ (runModel env).2.1, persistedOf ev = none) →
      (runModel env).1.2 = none) ∧
    (∀ (env : RunEnv) (c : String),
      (runModel env).1.2 = some c →
      ∃ d : Results, c = marshalResults d ∧
        d.WithoutVPN = (batchStat env.seriesFlag "" "" env.baselineOutcomes).1) := by
  refine ⟨batchStat_baseline_none, ?_, ?_⟩
  · intro env h
    have hb0 := batchStat_baseline_none env.seriesFlag "" env.baselineOutcomes
    simp only [runModel] at h ⊢
    rw [hb0] at h ⊢
    exact runLocs_no_persist env.machine env.seriesFlag _ none env.locations h
  · intro env c hc
    have hb0 := batchStat_baseline_none env.seriesFlag "" env.baselineOutcomes
    have hfs0 : runModel env = runLocs env.machine env.seriesFlag
        (batchStat env.seriesFlag "" "" env.baselineOutcomes).1 none env.locations := by
      simp only [runModel]
      rw [hb0]
    rw [hfs0] at hc
    have hinv := runLocs_inv env.machine env.seriesFlag
      (batchStat env.seriesFlag "" "" env.baselineOutcomes).1 none env.locations
      (Or.inl rfl)
    rcases hinv.2 with hnone | ⟨d, hd, hw⟩
    · rw [hc] at hnone
      exact Option.noConfusion hnone
    · rw [hc] at hd
      exact ⟨d, Option.some.inj hd, hw⟩

set_option maxRecDepth 100000 in
/-- Witness for C10: a run with no locations leaves no file, and a concrete
fully successful run leaves a single marshalled document whose WithoutVPN is
the baseline-batch string. -/
theorem baseline_never_persisted_witness :
    (runModel ⟨⟨some "h", "linux", "ubuntu"⟩, true, [], []⟩).1.2 = none ∧
    ∃ d : Results,
      marshalResults
          ⟨"host", "linux: ubuntu", "1000Mbps ▼  500Mbps ▲",
           [⟨"Romania, Bucharest", "1ms", "200.00Mbps", "100.00Mbps", "2.50ms",
             "ro.example", "t1", "Tests ran in series (one after another)"⟩]⟩ =
        marshalResults d ∧
      d.WithoutVPN =
        (batchStat true "" ""
          [some (⟨mkRat 7 1, 125000000, 62500000, "base.example", "B", "X", "Y"⟩,
            "t0")]).1 := by
  constructor
  · refine baseline_never_persisted.2.1 ⟨⟨some "h", "linux", "ubuntu"⟩, true, [], []⟩ ?_
    intro ev hev
    rw [show (runModel ⟨⟨some "h", "linux", "ubuntu"⟩, true, [], []⟩).2.1 = []
      from rfl] at hev
    exact absurd hev (List.not_mem_nil ev)
  · exact baseline_never_persisted.2.2
      ⟨⟨some "host", "linux", "ubuntu"⟩, true,
       [some (⟨mkRat 7 1, 125000000, 62500000, "base.example", "B", "X", "Y"⟩, "t0")],
       [(⟨"Romania", "Bucharest"⟩,
         ⟨some ["romania"], true, [some "Connected"], 1000000,
          [some (⟨mkRat 5 2, 25000000, 12500000, "ro.example", "R", "Romania",
             "Bucharest"⟩, "t1")]⟩)]⟩
      (marshalResults
        ⟨"host", "linux: ubuntu", "1000Mbps ▼  500Mbps ▲",
         [⟨"Romania, Bucharest", "1ms", "200.00Mbps", "100.00Mbps", "2.50ms",
           "ro.example", "t1", "Tests ran in series (one after another)"⟩]⟩)
      (by decide)

end ExpressVPNSpeedTest
